import Mathlib

/-!
Verification of the chuff compiler front end (lexer, parser, static symbol
tables) against its natural-language specification.

The Rust source is shallowly embedded:
  - char-level lexing combinators (chumsky) become functions
    `List Char → CRes α` where `CRes` distinguishes successful parses,
    recoverable failures, and Rust panics;
  - token-level parsing combinators become functions
    `List Token → Option (α × List Token)`;
  - machine integers (`usize`) become `Nat` with explicit overflow checks
    where the Rust code can overflow (a failed `parse::<usize>()`);
  - spans are positional metadata only and are dropped from the embedding
    (no claim under consideration mentions span values).
Greedy repetition (`repeated`) is embedded with a fuel argument equal to the
input length; every repeated element of these grammars consumes at least one
input item, so the fuel never runs out on the reachable paths.
-/

namespace Chuff

/-- EVM opcodes, from `src/utils/opcodes.rs` (`enum Opcode`, source order). -/
inductive Opcode where
  | Stop | Add | Mul | Sub | Div | Sdiv | Mod | Smod | Addmod | Mulmod
  | Exp | Signextend | Lt | Gt | Slt | Sgt | Eq | Iszero | And | Or
  | Xor | Not | Byte | Shl | Shr | Sar | Sha3 | Address | Balance | Origin
  | Caller | Callvalue | Calldataload | Calldatasize | Calldatacopy
  | Codesize | Codecopy | Gasprice | Extcodesize | Extcodecopy
  | Returndatasize | Returndatacopy | Blockhash | Coinbase | Timestamp
  | Number | Difficulty | Prevrandao | Gaslimit | Chainid | Selfbalance
  | Basefee | Pop | Mload | Mstore | Mstore8 | Sload | Sstore | Jump
  | Jumpi | Pc | Msize | Gas | Jumpdest
  | Push1 | Push2 | Push3 | Push4 | Push5 | Push6 | Push7 | Push8
  | Push9 | Push10 | Push11 | Push12 | Push13 | Push14 | Push15 | Push16
  | Push17 | Push18 | Push19 | Push20 | Push21 | Push22 | Push23 | Push24
  | Push25 | Push26 | Push27 | Push28 | Push29 | Push30 | Push31 | Push32
  | Dup1 | Dup2 | Dup3 | Dup4 | Dup5 | Dup6 | Dup7 | Dup8
  | Dup9 | Dup10 | Dup11 | Dup12 | Dup13 | Dup14 | Dup15 | Dup16
  | Swap1 | Swap2 | Swap3 | Swap4 | Swap5 | Swap6 | Swap7 | Swap8
  | Swap9 | Swap10 | Swap11 | Swap12 | Swap13 | Swap14 | Swap15 | Swap16
  | Log0 | Log1 | Log2 | Log3 | Log4 | TLoad | TStore
  | Create | Call | Callcode | Return | Delegatecall | Create2
  | Staticcall | Revert | Invalid | Selfdestruct | Extcodehash
  deriving DecidableEq, Repr

/-- `OPCODES_MAP` from `src/utils/opcodes.rs`, split into chunks
(association list in the order of the `phf_map!` entries). -/
def opChunk1 : List (String × Opcode) :=
  [("lt", .Lt), ("gt", .Gt), ("slt", .Slt), ("sgt", .Sgt), ("eq", .Eq),
   ("iszero", .Iszero), ("and", .And), ("or", .Or), ("xor", .Xor),
   ("not", .Not), ("sha3", .Sha3), ("address", .Address),
   ("balance", .Balance), ("origin", .Origin), ("caller", .Caller),
   ("callvalue", .Callvalue), ("calldataload", .Calldataload),
   ("calldatasize", .Calldatasize), ("calldatacopy", .Calldatacopy),
   ("codesize", .Codesize), ("codecopy", .Codecopy), ("basefee", .Basefee),
   ("blockhash", .Blockhash), ("coinbase", .Coinbase),
   ("timestamp", .Timestamp), ("number", .Number),
   ("difficulty", .Difficulty), ("prevrandao", .Prevrandao),
   ("gaslimit", .Gaslimit), ("chainid", .Chainid),
   ("selfbalance", .Selfbalance), ("pop", .Pop), ("mload", .Mload),
   ("mstore", .Mstore), ("mstore8", .Mstore8), ("sload", .Sload),
   ("sstore", .Sstore), ("jump", .Jump), ("jumpi", .Jumpi), ("pc", .Pc)]

def opChunk2 : List (String × Opcode) :=
  [("msize", .Msize),
   ("push1", .Push1), ("push2", .Push2), ("push3", .Push3),
   ("push4", .Push4), ("push5", .Push5), ("push6", .Push6),
   ("push7", .Push7), ("push8", .Push8), ("push9", .Push9),
   ("push10", .Push10), ("push17", .Push17), ("push18", .Push18),
   ("push19", .Push19), ("push20", .Push20), ("push21", .Push21),
   ("push22", .Push22), ("push23", .Push23), ("push24", .Push24),
   ("push25", .Push25), ("push26", .Push26),
   ("dup1", .Dup1), ("dup2", .Dup2), ("dup3", .Dup3), ("dup4", .Dup4),
   ("dup5", .Dup5), ("dup6", .Dup6), ("dup7", .Dup7), ("dup8", .Dup8),
   ("dup9", .Dup9), ("dup10", .Dup10),
   ("swap1", .Swap1), ("swap2", .Swap2), ("swap3", .Swap3),
   ("swap4", .Swap4), ("swap5", .Swap5), ("swap6", .Swap6),
   ("swap7", .Swap7), ("swap8", .Swap8), ("swap9", .Swap9)]

def opChunk3 : List (String × Opcode) :=
  [("swap10", .Swap10),
   ("stop", .Stop), ("add", .Add), ("mul", .Mul), ("sub", .Sub),
   ("div", .Div), ("sdiv", .Sdiv), ("mod", .Mod), ("smod", .Smod),
   ("addmod", .Addmod), ("mulmod", .Mulmod), ("exp", .Exp),
   ("signextend", .Signextend), ("byte", .Byte), ("shl", .Shl),
   ("shr", .Shr), ("sar", .Sar), ("gasprice", .Gasprice),
   ("extcodesize", .Extcodesize), ("extcodecopy", .Extcodecopy),
   ("returndatasize", .Returndatasize), ("returndatacopy", .Returndatacopy),
   ("extcodehash", .Extcodehash), ("gas", .Gas), ("jumpdest", .Jumpdest),
   ("push11", .Push11), ("push12", .Push12), ("push13", .Push13),
   ("push14", .Push14), ("push15", .Push15), ("push16", .Push16),
   ("push27", .Push27), ("push28", .Push28), ("push29", .Push29),
   ("push30", .Push30), ("push31", .Push31), ("push32", .Push32),
   ("dup11", .Dup11), ("dup12", .Dup12), ("dup13", .Dup13)]

def opChunk4 : List (String × Opcode) :=
  [("dup14", .Dup14), ("dup15", .Dup15), ("dup16", .Dup16),
   ("swap11", .Swap11), ("swap12", .Swap12), ("swap13", .Swap13),
   ("swap14", .Swap14), ("swap15", .Swap15), ("swap16", .Swap16),
   ("log0", .Log0), ("log1", .Log1), ("log2", .Log2), ("log3", .Log3),
   ("log4", .Log4), ("tload", .TLoad), ("tstore", .TStore),
   ("create", .Create), ("call", .Call), ("callcode", .Callcode),
   ("return", .Return), ("delegatecall", .Delegatecall),
   ("staticcall", .Staticcall), ("create2", .Create2), ("revert", .Revert),
   ("invalid", .Invalid), ("selfdestruct", .Selfdestruct)]

def opcodesList : List (String × Opcode) :=
  opChunk1 ++ opChunk2 ++ opChunk3 ++ opChunk4

/-- `OPCODES_MAP.get`: exact-match lookup of a mnemonic. -/
def opcodesMap (s : String) : Option Opcode :=
  (opcodesList.find? (fun p => p.1 = s)).map (·.2)

/-- The key set of the opcode table. -/
def opcodeKeys : List String := opcodesList.map (fun p => p.1)

/-- Builtin function kinds, from `src/builtins.rs` (`enum BuiltinFunctionKind`). -/
inductive BuiltinFunctionKind where
  | Tablesize | Codesize | Tablestart | FunctionSignature | EventHash
  | Error | RightPad | DynConstructorArg
  deriving DecidableEq, Repr

/-- `BUILTINS_MAP` from `src/builtins.rs` as an association list. -/
def builtinsList : List (String × BuiltinFunctionKind) :=
  [("__tablestart", .Tablestart), ("__tablesize", .Tablesize),
   ("__codesize", .Codesize), ("__FUNC_SIG", .FunctionSignature),
   ("__EVENT_HASH", .EventHash), ("__ERROR", .Error),
   ("__RIGHTPAD", .RightPad), ("__DYN_CONSTRUCTOR_ARG", .DynConstructorArg)]

/-- `BUILTINS_MAP.get`: exact-match lookup of a builtin name. -/
def builtinsMap (s : String) : Option BuiltinFunctionKind :=
  (builtinsList.find? (fun p => p.1 = s)).map (·.2)

/-- `TryFrom<&String> for BuiltinFunctionKind` (`src/builtins.rs`):
`Err(())` is embedded as `none`. -/
def tryFromBuiltin (s : String) : Option BuiltinFunctionKind :=
  if s = "__tablesize" then some .Tablesize
  else if s = "__codesize" then some .Codesize
  else if s = "__tablestart" then some .Tablestart
  else if s = "__FUNC_SIG" then some .FunctionSignature
  else if s = "__EVENT_HASH" then some .EventHash
  else if s = "__ERROR" then some .Error
  else if s = "__RIGHTPAD" then some .RightPad
  else if s = "__CODECOPY_DYN_ARG" then some .DynConstructorArg
  else none

/-- `From<String> for BuiltinFunctionKind` (`src/builtins.rs`): the catch-all
arm executes `panic!`, embedded as `none`. -/
def fromStringBuiltin (s : String) : Option BuiltinFunctionKind :=
  if s = "__tablesize" then some .Tablesize
  else if s = "__codesize" then some .Codesize
  else if s = "__tablestart" then some .Tablestart
  else if s = "__FUNC_SIG" then some .FunctionSignature
  else if s = "__EVENT_HASH" then some .EventHash
  else if s = "__ERROR" then some .Error
  else if s = "__RIGHTPAD" then some .RightPad
  else if s = "__CODECOPY_DYN_ARG" then some .DynConstructorArg
  else none

/-- A 32-byte hex literal value (`pub type Literal = [u8; 32]` in
`src/lexer/token.rs`), embedded as a list of byte values. -/
abbrev Literal := List Nat

/-- EVM primitive types carried by type tokens. The defining module is not
under `src/`; the seven variants are taken from the exhaustive `match` in
`Ast::extract_fixed_primitive` (`src/parser/mod.rs`). -/
inductive PrimitiveEVMType where
  | Address
  | DynBytes
  | Bool
  | String
  | Int (size : Nat)
  | Bytes (size : Nat)
  | Uint (size : Nat)
  deriving DecidableEq, Repr

set_option maxHeartbeats 3200000 in
/-- Lexer tokens, from `src/lexer/token.rs` (`enum Token`). -/
inductive Token where
  | Eof
  | Comment (c : String)
  | Newline
  | Div
  | Define
  | Include
  | Macro
  | Fn
  | Test
  | Function
  | Event
  | Constant
  | Error
  | Takes
  | Returns
  | View
  | Pure
  | Payable
  | NonPayable
  | Indexed
  | FreeStoragePointer
  | Ident (i : String)
  | Assign
  | OpenParen
  | CloseParen
  | OpenBracket
  | CloseBracket
  | OpenBrace
  | CloseBrace
  | LeftAngle
  | RightAngle
  | Add
  | Sub
  | Mul
  | Comma
  | Colon
  | Pound
  | Num (n : Nat)
  | Whitespace
  | Str (s : String)
  | Literal (l : Literal)
  | Code (c : String)
  | Opcode (o : Opcode)
  | Label (l : String)
  | Path (p : String)
  | PrimitiveType (t : PrimitiveEVMType)
  | ArrayType (t : PrimitiveEVMType) (dims : List Nat)
  | JumpTable
  | JumpTablePacked
  | CodeTable
  | BuiltinFunction (b : String)
  | Calldata
  | Memory
  | Storage
  | Unknown (u : String)
  deriving Repr

/-- The payload fields of a token, flattened (used only to obtain a compact
decidable equality; the derived instance builds an impractically large case
split). -/
structure TokenKey where
  tag : Nat
  s : String
  n : Nat
  bytes : List Nat
  prim : Option PrimitiveEVMType
  dims : List Nat
  op : Option Opcode
  deriving DecidableEq

/-- Flat injective encoding of a token: a constructor tag together with
every payload field. -/
def encToken : Token → TokenKey
  | .Eof => ⟨0, "", 0, [], none, [], none⟩
  | .Comment c => ⟨1, c, 0, [], none, [], none⟩
  | .Newline => ⟨2, "", 0, [], none, [], none⟩
  | .Div => ⟨3, "", 0, [], none, [], none⟩
  | .Define => ⟨4, "", 0, [], none, [], none⟩
  | .Include => ⟨5, "", 0, [], none, [], none⟩
  | .Macro => ⟨6, "", 0, [], none, [], none⟩
  | .Fn => ⟨7, "", 0, [], none, [], none⟩
  | .Test => ⟨8, "", 0, [], none, [], none⟩
  | .Function => ⟨9, "", 0, [], none, [], none⟩
  | .Event => ⟨10, "", 0, [], none, [], none⟩
  | .Constant => ⟨11, "", 0, [], none, [], none⟩
  | .Error => ⟨12, "", 0, [], none, [], none⟩
  | .Takes => ⟨13, "", 0, [], none, [], none⟩
  | .Returns => ⟨14, "", 0, [], none, [], none⟩
  | .View => ⟨15, "", 0, [], none, [], none⟩
  | .Pure => ⟨16, "", 0, [], none, [], none⟩
  | .Payable => ⟨17, "", 0, [], none, [], none⟩
  | .NonPayable => ⟨18, "", 0, [], none, [], none⟩
  | .Indexed => ⟨19, "", 0, [], none, [], none⟩
  | .FreeStoragePointer => ⟨20, "", 0, [], none, [], none⟩
  | .Ident i => ⟨21, i, 0, [], none, [], none⟩
  | .Assign => ⟨22, "", 0, [], none, [], none⟩
  | .OpenParen => ⟨23, "", 0, [], none, [], none⟩
  | .CloseParen => ⟨24, "", 0, [], none, [], none⟩
  | .OpenBracket => ⟨25, "", 0, [], none, [], none⟩
  | .CloseBracket => ⟨26, "", 0, [], none, [], none⟩
  | .OpenBrace => ⟨27, "", 0, [], none, [], none⟩
  | .CloseBrace => ⟨28, "", 0, [], none, [], none⟩
  | .LeftAngle => ⟨29, "", 0, [], none, [], none⟩
  | .RightAngle => ⟨30, "", 0, [], none, [], none⟩
  | .Add => ⟨31, "", 0, [], none, [], none⟩
  | .Sub => ⟨32, "", 0, [], none, [], none⟩
  | .Mul => ⟨33, "", 0, [], none, [], none⟩
  | .Comma => ⟨34, "", 0, [], none, [], none⟩
  | .Colon => ⟨35, "", 0, [], none, [], none⟩
  | .Pound => ⟨36, "", 0, [], none, [], none⟩
  | .Num n => ⟨37, "", n, [], none, [], none⟩
  | .Whitespace => ⟨38, "", 0, [], none, [], none⟩
  | .Str s => ⟨39, s, 0, [], none, [], none⟩
  | .Literal l => ⟨40, "", 0, l, none, [], none⟩
  | .Code c => ⟨41, c, 0, [], none, [], none⟩
  | .Opcode o => ⟨42, "", 0, [], none, [], some o⟩
  | .Label l => ⟨43, l, 0, [], none, [], none⟩
  | .Path p => ⟨44, p, 0, [], none, [], none⟩
  | .PrimitiveType t => ⟨45, "", 0, [], some t, [], none⟩
  | .ArrayType t dims => ⟨46, "", 0, [], some t, dims, none⟩
  | .JumpTable => ⟨47, "", 0, [], none, [], none⟩
  | .JumpTablePacked => ⟨48, "", 0, [], none, [], none⟩
  | .CodeTable => ⟨49, "", 0, [], none, [], none⟩
  | .BuiltinFunction b => ⟨50, b, 0, [], none, [], none⟩
  | .Calldata => ⟨51, "", 0, [], none, [], none⟩
  | .Memory => ⟨52, "", 0, [], none, [], none⟩
  | .Storage => ⟨53, "", 0, [], none, [], none⟩
  | .Unknown u => ⟨54, u, 0, [], none, [], none⟩

/-- Partial inverse of `encToken`. -/
def decToken (x : TokenKey) : Token :=
  match x with
  | ⟨0, _, _, _, _, _, _⟩ => .Eof
  | ⟨1, c, _, _, _, _, _⟩ => .Comment c
  | ⟨2, _, _, _, _, _, _⟩ => .Newline
  | ⟨3, _, _, _, _, _, _⟩ => .Div
  | ⟨4, _, _, _, _, _, _⟩ => .Define
  | ⟨5, _, _, _, _, _, _⟩ => .Include
  | ⟨6, _, _, _, _, _, _⟩ => .Macro
  | ⟨7, _, _, _, _, _, _⟩ => .Fn
  | ⟨8, _, _, _, _, _, _⟩ => .Test
  | ⟨9, _, _, _, _, _, _⟩ => .Function
  | ⟨10, _, _, _, _, _, _⟩ => .Event
  | ⟨11, _, _, _, _, _, _⟩ => .Constant
  | ⟨12, _, _, _, _, _, _⟩ => .Error
  | ⟨13, _, _, _, _, _, _⟩ => .Takes
  | ⟨14, _, _, _, _, _, _⟩ => .Returns
  | ⟨15, _, _, _, _, _, _⟩ => .View
  | ⟨16, _, _, _, _, _, _⟩ => .Pure
  | ⟨17, _, _, _, _, _, _⟩ => .Payable
  | ⟨18, _, _, _, _, _, _⟩ => .NonPayable
  | ⟨19, _, _, _, _, _, _⟩ => .Indexed
  | ⟨20, _, _, _, _, _, _⟩ => .FreeStoragePointer
  | ⟨21, i, _, _, _, _, _⟩ => .Ident i
  | ⟨22, _, _, _, _, _, _⟩ => .Assign
  | ⟨23, _, _, _, _, _, _⟩ => .OpenParen
  | ⟨24, _, _, _, _, _, _⟩ => .CloseParen
  | ⟨25, _, _, _, _, _, _⟩ => .OpenBracket
  | ⟨26, _, _, _, _, _, _⟩ => .CloseBracket
  | ⟨27, _, _, _, _, _, _⟩ => .OpenBrace
  | ⟨28, _, _, _, _, _, _⟩ => .CloseBrace
  | ⟨29, _, _, _, _, _, _⟩ => .LeftAngle
  | ⟨30, _, _, _, _, _, _⟩ => .RightAngle
  | ⟨31, _, _, _, _, _, _⟩ => .Add
  | ⟨32, _, _, _, _, _, _⟩ => .Sub
  | ⟨33, _, _, _, _, _, _⟩ => .Mul
  | ⟨34, _, _, _, _, _, _⟩ => .Comma
  | ⟨35, _, _, _, _, _, _⟩ => .Colon
  | ⟨36, _, _, _, _, _, _⟩ => .Pound
  | ⟨37, _, n, _, _, _, _⟩ => .Num n
  | ⟨38, _, _, _, _, _, _⟩ => .Whitespace
  | ⟨39, s, _, _, _, _, _⟩ => .Str s
  | ⟨40, _, _, l, _, _, _⟩ => .Literal l
  | ⟨41, c, _, _, _, _, _⟩ => .Code c
  | ⟨42, _, _, _, _, _, some o⟩ => .Opcode o
  | ⟨43, l, _, _, _, _, _⟩ => .Label l
  | ⟨44, p, _, _, _, _, _⟩ => .Path p
  | ⟨45, _, _, _, some t, _, _⟩ => .PrimitiveType t
  | ⟨46, _, _, _, some t, dims, _⟩ => .ArrayType t dims
  | ⟨47, _, _, _, _, _, _⟩ => .JumpTable
  | ⟨48, _, _, _, _, _, _⟩ => .JumpTablePacked
  | ⟨49, _, _, _, _, _, _⟩ => .CodeTable
  | ⟨50, b, _, _, _, _, _⟩ => .BuiltinFunction b
  | ⟨51, _, _, _, _, _, _⟩ => .Calldata
  | ⟨52, _, _, _, _, _, _⟩ => .Memory
  | ⟨53, _, _, _, _, _, _⟩ => .Storage
  | ⟨54, u, _, _, _, _, _⟩ => .Unknown u
  | _ => .Eof

theorem decToken_encToken : ∀ t, decToken (encToken t) = t := by
  intro t
  cases t <;> rfl

instance : DecidableEq Token := fun a b =>
  if h : encToken a = encToken b then
    isTrue (by
      have h2 := congrArg decToken h
      rwa [decToken_encToken, decToken_encToken] at h2)
  else
    isFalse (fun he => h (congrArg encToken he))

/-! ## Character-level lexing primitives

The chumsky combinators are embedded as functions `List Char → CRes α`.
`CRes.fail` is a recoverable parse failure (a chumsky error); `CRes.panicked`
is a Rust `panic!` or a panicking `unwrap()`, which aborts the process and
propagates through every combinator. -/

/-- Result of running an embedded character-level parser. -/
inductive CRes (α : Type) where
  | ok (val : α) (rest : List Char)
  | fail
  | panicked
  deriving DecidableEq, Repr

/-- Embedded `Parser::or`: chumsky tries the second parser whenever the
first fails, backtracking to the original position. A panic propagates. -/
def corElse (p q : List Char → CRes α) : List Char → CRes α := fun cs =>
  match p cs with
  | .fail => q cs
  | r => r

/-- `usize::MAX` on the 64-bit targets this crate builds for. -/
def USIZE_MAX : Nat := 2 ^ 64 - 1

/-- `char::is_digit(16)` (used by `text::digits(16)`). -/
def isHexDigit (c : Char) : Bool :=
  c.isDigit || ('a' ≤ c && c ≤ 'f') || ('A' ≤ c && c ≤ 'F')

/-- Numeric value of a hex digit. -/
def hexDigitVal (c : Char) : Nat :=
  if c.isDigit then c.toNat - 48
  else if 'a' ≤ c && c ≤ 'f' then c.toNat - 87
  else if 'A' ≤ c && c ≤ 'F' then c.toNat - 55
  else 0

/-- Value of a decimal digit string (the happy path of `str::parse::<usize>`). -/
def digitsVal10 (d : List Char) : Nat :=
  d.foldl (fun a c => 10 * a + (c.toNat - 48)) 0

/-- Value of a hex digit string, big-endian. -/
def hexVal (d : List Char) : Nat :=
  d.foldl (fun a c => 16 * a + hexDigitVal c) 0

/-- `str::parse::<usize>()` as used by the lexer: succeeds only on a
non-empty run of decimal digits whose value fits in `usize`. -/
def parseUsize? (d : List Char) : Option Nat :=
  if !d.isEmpty && d.all Char.isDigit && digitsVal10 d ≤ USIZE_MAX then
    some (digitsVal10 d)
  else none

/-- `text::digits(radix)`: a maximal, non-empty run of digit characters. -/
def digitsWhile (p : Char → Bool) (cs : List Char) :
    Option (List Char × List Char) :=
  let d := cs.takeWhile p
  if d.isEmpty then none else some (d, cs.dropWhile p)

/-- `text::digits(16)`. -/
def digits16 (cs : List Char) : Option (List Char × List Char) :=
  digitsWhile isHexDigit cs

/-- `text::digits(10)`. -/
def digits10 (cs : List Char) : Option (List Char × List Char) :=
  digitsWhile Char.isDigit cs

/-- First character of a chumsky `text::ident()`: ASCII alphabetic or `_`. -/
def isIdentStart (c : Char) : Bool := c.isAlpha || c = '_'

/-- Continuation character of `text::ident()`: ASCII alphanumeric or `_`. -/
def isIdentCont (c : Char) : Bool := c.isAlphanum || c = '_'

/-- `text::ident()`: a maximal identifier. -/
def identP (cs : List Char) : Option (List Char × List Char) :=
  match cs with
  | c :: rest =>
      if isIdentStart c then
        some (c :: rest.takeWhile isIdentCont, rest.dropWhile isIdentCont)
      else none
  | [] => none

/-- `text::keyword(k)`: an identifier that must equal `k` exactly. -/
def keywordP (k : String) (cs : List Char) : Option (List Char) :=
  match identP cs with
  | some (w, r) => if String.mk w = k then some r else none
  | none => none

/-- `char::is_whitespace` (the character set of Rust Unicode whitespace,
used by chumsky `.padded()`). -/
def wsChar (c : Char) : Bool :=
  c = ' ' || c = '\t' || c = '\n' || c = '\x0B' || c = '\x0C' || c = '\r' ||
  c = '\u0085' || c = ' ' || c = ' ' ||
  (' ' ≤ c && c ≤ ' ') ||
  c = ' ' || c = ' ' || c = ' ' || c = ' ' || c = '　'

/-- `.padded()` consumes a whitespace run. -/
def skipWs (cs : List Char) : List Char := cs.dropWhile wsChar

/-- `lex_non_newline_whitespace` (`one_of "\t "`), a single such character. -/
def isTabSpace (c : Char) : Bool := c = '\t' || c = ' '

/-- A run of non-newline whitespace (`other_whitespace.repeated()`). -/
def dropTabSpace (cs : List Char) : List Char := cs.dropWhile isTabSpace

/-- The single-character newline alternatives of chumsky `text::newline()`
other than LF / CRLF. -/
def newlineChar (c : Char) : Bool :=
  c = '\x0B' || c = '\x0C' || c = '\r' ||
  c = '\u0085' || c = ' ' || c = ' '

/-- chumsky `text::newline()`: LF, CRLF, or one of the other newline
characters. -/
def newlineP (cs : List Char) : Option (List Char) :=
  match cs with
  | '\r' :: '\n' :: r => some r
  | '\n' :: r => some r
  | c :: r => if newlineChar c then some r else none
  | [] => none

/-- The `key` helper from `src/lexer/utils.rs`: `text::keyword(c).padded()`
(whitespace is consumed on both sides). -/
def key (k : String) (cs : List Char) : Option (List Char) :=
  match keywordP k (skipWs cs) with
  | some r => some (skipWs r)
  | none => none

/-! ## The lexer (`src/lexer/mod.rs`) -/

/-- `lex_define`: the literal `#` immediately followed by the (padded)
keyword `define`. -/
def lex_define : List Char → CRes Token
  | '#' :: cs =>
      match key "define" cs with
      | some r => .ok Token.Define r
      | none => .fail
  | _ => .fail

/-- `lex_include`: the literal `#` immediately followed by the (padded)
keyword `include`. -/
def lex_include : List Char → CRes Token
  | '#' :: cs =>
      match key "include" cs with
      | some r => .ok Token.Include r
      | none => .fail
  | _ => .fail

/-- `lex_free_storage_pointer`: the padded keyword `FREE_STORAGE_POINTER`. -/
def lex_free_storage_pointer (cs : List Char) : CRes Token :=
  match key "FREE_STORAGE_POINTER" cs with
  | some r => .ok Token.FreeStoragePointer r
  | none => .fail

/-- Big-endian byte decomposition: the `k` low-order base-256 digits of `v`,
most significant first. -/
def natToBytesBE : Nat → Nat → List Nat
  | 0, _ => []
  | k + 1, v => natToBytesBE k (v / 256) ++ [v % 256]

/-- Modelled from the spec: `str_to_bytes32` (module `utils::bytes_util`,
not present under `src/`). Spec 4.1: the hex value is zero-extended to 32
bytes, most-significant byte first, i.e. treated as a big-endian integer
right-aligned within the 32-byte buffer. -/
def str_to_bytes32 (d : List Char) : Literal :=
  natToBytesBE 32 (hexVal d)

/-- `lex_literals`: `0x` followed by a maximal run of hex digits; fewer than
64 digits decode to a 32-byte `Literal`, otherwise the digits are kept
verbatim as a `Code` token. -/
def lex_literals : List Char → CRes Token
  | '0' :: 'x' :: cs =>
      match digits16 cs with
      | some (num, r) =>
          if num.length < 64 then .ok (Token.Literal (str_to_bytes32 num)) r
          else .ok (Token.Code (String.mk num)) r
      | none => .fail
  | _ => .fail

/-- `lex_uint`: `uint` followed by decimal digits; the digit run is
converted with `digits.parse().unwrap()`, which panics when the value
exceeds `usize::MAX`. -/
def lex_uint : List Char → CRes PrimitiveEVMType
  | 'u' :: 'i' :: 'n' :: 't' :: cs =>
      match digits10 cs with
      | some (d, r) =>
          if digitsVal10 d ≤ USIZE_MAX then .ok (.Uint (digitsVal10 d)) r
          else .panicked
      | none => .fail
  | _ => .fail

/-- `lex_int`: `int` followed by decimal digits, with the same panicking
`unwrap` as `lex_uint`. -/
def lex_int : List Char → CRes PrimitiveEVMType
  | 'i' :: 'n' :: 't' :: cs =>
      match digits10 cs with
      | some (d, r) =>
          if digitsVal10 d ≤ USIZE_MAX then .ok (.Int (digitsVal10 d)) r
          else .panicked
      | none => .fail
  | _ => .fail

/-- `lex_bytes`: `bytes` optionally followed by decimal digits; bare
`bytes` is the dynamic type, a digit run is converted with a panicking
`unwrap`. -/
def lex_bytes : List Char → CRes PrimitiveEVMType
  | 'b' :: 'y' :: 't' :: 'e' :: 's' :: cs =>
      match digits10 cs with
      | some (d, r) =>
          if digitsVal10 d ≤ USIZE_MAX then .ok (.Bytes (digitsVal10 d)) r
          else .panicked
      | none => .ok .DynBytes cs
  | _ => .fail

/-- `lex_abi_type`: `uint.or(bytes).or(int)`. -/
def lex_abi_type : List Char → CRes PrimitiveEVMType :=
  corElse lex_uint (corElse lex_bytes lex_int)

/-- One `[digits?]` element of `lex_array`. The `x.parse().unwrap()` in its
`map` closure runs after the closing bracket has matched and panics on
overflow; an empty dimension yields `0`. -/
def lex_array_elem : List Char → CRes Nat
  | '[' :: cs =>
      match digits10 cs with
      | some (d, r) =>
          match r with
          | ']' :: r2 =>
              if digitsVal10 d ≤ USIZE_MAX then .ok (digitsVal10 d) r2
              else .panicked
          | _ => .fail
      | none =>
          match cs with
          | ']' :: r2 => .ok 0 r2
          | _ => .fail
  | _ => .fail

/-- Fuel-indexed greedy repetition (`Parser::repeated`). The fuel is the
input length; every element of the grammars embedded here consumes at least
one character, so the guard and the fuel-exhaustion branch are unreachable
on those elements. -/
def cmanyGo (p : List Char → CRes α) : Nat → List Char → CRes (List α)
  | 0, cs => .ok [] cs
  | fuel + 1, cs =>
      match p cs with
      | .panicked => .panicked
      | .fail => .ok [] cs
      | .ok a r =>
          if r.length < cs.length then
            match cmanyGo p fuel r with
            | .ok xs u => .ok (a :: xs) u
            | other => other
          else .ok [] cs

/-- Greedy repetition with fuel set to the input length. -/
def cmany (p : List Char → CRes α) (cs : List Char) : CRes (List α) :=
  cmanyGo p cs.length cs

/-- `lex_array`: zero or more `[digits?]` dimension suffixes. -/
def lex_array : List Char → CRes (List Nat) :=
  cmany lex_array_elem

/-- `lex_evm_type`: a primitive-type keyword (`bool`, `string`, `address`,
or an `lex_abi_type` form), then optional array dimensions; an empty
dimension list produces a plain `PrimitiveType` token. -/
def lex_evm_type (cs : List Char) : CRes Token :=
  let prim : CRes PrimitiveEVMType :=
    match keywordP "bool" cs with
    | some r => .ok .Bool r
    | none =>
        match keywordP "string" cs with
        | some r => .ok .String r
        | none =>
            match keywordP "address" cs with
            | some r => .ok .Address r
            | none => lex_abi_type cs
  match prim with
  | .ok p r =>
      match lex_array r with
      | .ok arr r2 =>
          if arr.isEmpty then .ok (Token.PrimitiveType p) r2
          else .ok (Token.ArrayType p arr) r2
      | .fail => .fail
      | .panicked => .panicked
  | .fail => .fail
  | .panicked => .panicked

/-- `lex_builtin_function`: two underscores, then `text::ident()`; the
token payload is the identifier with the two underscores already consumed. -/
def lex_builtin_function : List Char → CRes Token
  | '_' :: '_' :: cs =>
      match identP cs with
      | some (w, r) => .ok (Token.BuiltinFunction (String.mk w)) r
      | none => .fail
  | _ => .fail

/-- `lex_operators`: the single-character punctuation tokens. -/
def lex_operators : List Char → CRes Token
  | '=' :: r => .ok Token.Assign r
  | '(' :: r => .ok Token.OpenParen r
  | ')' :: r => .ok Token.CloseParen r
  | '[' :: r => .ok Token.OpenBracket r
  | ']' :: r => .ok Token.CloseBracket r
  | '{' :: r => .ok Token.OpenBrace r
  | '}' :: r => .ok Token.CloseBrace r
  | '<' :: r => .ok Token.LeftAngle r
  | '>' :: r => .ok Token.RightAngle r
  | ',' :: r => .ok Token.Comma r
  | ':' :: r => .ok Token.Colon r
  | _ => .fail

/-- One escape sequence of `lex_string`. An invalid `\uXXXX` code point
(a UTF-16 surrogate) is replaced by U+FFFD after emitting a non-fatal
diagnostic. -/
def lex_escape : List Char → Option (Char × List Char)
  | '\\' :: c :: r =>
      if c = '\\' || c = '/' || c = '"' then some (c, r)
      else if c = 'b' then some ('\x08', r)
      else if c = 'f' then some ('\x0C', r)
      else if c = 'n' then some ('\n', r)
      else if c = 'r' then some ('\r', r)
      else if c = 't' then some ('\t', r)
      else if c = 'u' then
        match r with
        | a :: b :: c2 :: d :: r2 =>
            if isHexDigit a && isHexDigit b && isHexDigit c2 && isHexDigit d
            then
              let v := hexVal [a, b, c2, d]
              if v.isValidChar then some (Char.ofNat v, r2)
              else some ('�', r2)
            else none
        | _ => none
      else none
  | _ => .none

/-- The repeated character body of `lex_string`: ordinary characters
(anything but backslash and quote) or escapes, collected greedily. -/
def lex_string_chars : Nat → List Char → List Char × List Char
  | 0, cs => ([], cs)
  | fuel + 1, cs =>
      match cs with
      | c :: r =>
          if c ≠ '\\' && c ≠ '"' then
            let (w, u) := lex_string_chars fuel r
            (c :: w, u)
          else
            match lex_escape cs with
            | some (c2, r2) =>
                let (w, u) := lex_string_chars fuel r2
                (c2 :: w, u)
            | none => ([], cs)
      | [] => ([], cs)

/-- `lex_string`: a double-quoted string with escapes. -/
def lex_string : List Char → CRes Token
  | '"' :: cs =>
      match lex_string_chars cs.length cs with
      | (w, u) =>
          match u with
          | '"' :: r => .ok (Token.Str (String.mk w)) r
          | _ => .fail
  | _ => .fail

/-- `lex_opcode_or_ident`: a padded identifier, resolved first against
`OPCODES_MAP`, then against the keyword set, and otherwise kept as a
generic identifier. -/
def lex_opcode_or_ident (cs : List Char) : CRes Token :=
  match identP (skipWs cs) with
  | some (w, r) =>
      let s := String.mk w
      let tok : Token :=
        match opcodesMap s with
        | some op => Token.Opcode op
        | none =>
            if s = "macro" then .Macro
            else if s = "calldata" then .Calldata
            else if s = "memory" then .Memory
            else if s = "storage" then .Storage
            else if s = "constant" then .Constant
            else if s = "fn" then .Fn
            else if s = "function" then .Function
            else if s = "event" then .Event
            else if s = "error" then .Error
            else if s = "takes" then .Takes
            else if s = "returns" then .Returns
            else if s = "codetable" then .CodeTable
            else if s = "jumptable" then .JumpTable
            else if s = "jumptablepacked" then .JumpTablePacked
            else if s = "pure" then .Pure
            else if s = "payable" then .Payable
            else if s = "nonpayable" then .NonPayable
            else if s = "view" then .View
            else if s = "indexed" then .Indexed
            else .Ident s
      .ok tok (skipWs r)
  | none => .fail

/-- `lex_number`: a maximal run of base-16 digit characters parsed in base
10; a failed parse (hex letters, or overflow) falls back to `0` via
`unwrap_or(0)`. -/
def lex_number (cs : List Char) : CRes Token :=
  match digits16 cs with
  | some (d, r) => .ok (Token.Num ((parseUsize? d).getD 0)) r
  | none => .fail

/-- A `//` line comment, padded by non-newline whitespace; `take_until`
consumes through the terminating LF. -/
def lex_line_comment (cs : List Char) : Option (List Char) :=
  match dropTabSpace cs with
  | '/' :: '/' :: r =>
      match (r.dropWhile (fun c => c ≠ '\n')) with
      | '\n' :: r2 => some (dropTabSpace r2)
      | _ => none
  | _ => none

/-- Scanning for the `*/` terminator of a block comment. -/
def dropUntilBlockEnd : Nat → List Char → Option (List Char)
  | _, [] => none
  | 0, _ => none
  | fuel + 1, cs =>
      match cs with
      | '*' :: '/' :: r => some r
      | _ :: r => dropUntilBlockEnd fuel r
      | [] => none

/-- A `/* ... */` block comment, padded by non-newline whitespace. -/
def lex_block_comment (cs : List Char) : Option (List Char) :=
  match dropTabSpace cs with
  | '/' :: '*' :: r =>
      match dropUntilBlockEnd r.length r with
      | some r2 => some (dropTabSpace r2)
      | none => none
  | _ => none

/-- One element of `lex_newline_and_comments`: a newline, a line comment,
or a block comment (in that order). -/
def nlElem (cs : List Char) : Option (List Char) :=
  match newlineP cs with
  | some r => some r
  | none =>
      match lex_line_comment cs with
      | some r => some r
      | none => lex_block_comment cs

/-- Greedy repetition of `nlElem`. -/
def nlMany : Nat → List Char → List Char
  | 0, cs => cs
  | fuel + 1, cs =>
      match nlElem cs with
      | some r => if r.length < cs.length then nlMany fuel r else cs
      | none => cs

/-- `lex_newline_and_comments`: at least one newline or comment, all
collapsed into a single `Newline` token. -/
def lex_newline_and_comments (cs : List Char) : CRes Token :=
  match nlElem cs with
  | some r => .ok Token.Newline (nlMany r.length r)
  | none => .fail

/-- The ordered token choice of `lexer()` (`src/lexer/mod.rs`, the `token`
binding): define, EVM type, free storage pointer, include, string, hex
literal, builtin function, operators, opcode-or-identifier, number,
newline. -/
def lex_token : List Char → CRes Token :=
  corElse lex_define
    (corElse lex_evm_type
      (corElse lex_free_storage_pointer
        (corElse lex_include
          (corElse lex_string
            (corElse lex_literals
              (corElse lex_builtin_function
                (corElse lex_operators
                  (corElse lex_opcode_or_ident
                    (corElse lex_number lex_newline_and_comments)))))))))

/-- `recover_with(skip_then_retry_until([]))`: on failure, skip one
character and retry; fails only at end of input. -/
def lexTokenRec : Nat → List Char → CRes Token
  | 0, _ => .fail
  | fuel + 1, cs =>
      match lex_token cs with
      | .fail =>
          match cs with
          | [] => .fail
          | _ :: cs2 => lexTokenRec fuel cs2
      | r => r

/-- One element of the main token repetition: the recovered token choice,
padded by non-newline whitespace on both sides. -/
def lexElement (cs : List Char) : CRes Token :=
  let cs1 := dropTabSpace cs
  match lexTokenRec cs1.length cs1 with
  | .ok t r => .ok t (dropTabSpace r)
  | .fail => .fail
  | .panicked => .panicked

/-- The `tokens` parser of `lexer()`: the repeated padded token choice,
chained with a final newline (synthesized via `end().rewind()` when the
source does not end in one), then `end()`. -/
def chuffTokens (cs : List Char) : CRes (List Token) :=
  match cmany lexElement cs with
  | .ok ts r =>
      match lex_newline_and_comments r with
      | .ok t r2 => if r2.isEmpty then .ok (ts ++ [t]) [] else .fail
      | .fail => if r.isEmpty then .ok (ts ++ [Token.Newline]) [] else .fail
      | .panicked => .panicked
  | .fail => .fail
  | .panicked => .panicked

/-- `lexer()` (`src/lexer/mod.rs`): an optional leading newline run is
consumed and discarded, then the main token stream is lexed. -/
def lexer (cs : List Char) : CRes (List Token) :=
  match lex_newline_and_comments cs with
  | .ok _ r => chuffTokens r
  | .fail => chuffTokens cs
  | .panicked => .panicked

/-! ## AST data model (`src/parser/mod.rs`, `src/utils/abi.rs`,
`src/utils/ast.rs`) -/

/-- ABI parameter types, from `src/utils/abi.rs` (`enum FunctionParamType`). -/
inductive FunctionParamType where
  | Address
  | Bytes
  | Int (size : Nat)
  | Uint (size : Nat)
  | Bool
  | String
  | Array (inner : FunctionParamType) (dims : List Nat)
  | FixedBytes (size : Nat)
  | Tuple (inner : List FunctionParamType)

/-- Function state mutability, from `src/utils/abi.rs` (`enum FunctionType`). -/
inductive FunctionType where
  | View | Payable | NonPayable | Pure
  deriving DecidableEq, Repr

/-- An ABI function parameter (`struct FunctionParam`). In
`parse_abi_inputs` the optional data-location word is stored in
`internal_type`. -/
structure FunctionParam where
  name : String
  kind : FunctionParamType
  internal_type : Option String

/-- An ABI function definition (`struct Function`). -/
structure Function where
  name : String
  inputs : List FunctionParam
  outputs : List FunctionParam
  constant : Bool
  state_mutability : FunctionType

/-- An ABI event parameter (`struct EventParam`). -/
structure EventParam where
  name : String
  kind : FunctionParamType
  indexed : Bool

/-- An ABI event definition (`struct Event`). -/
structure Event where
  name : String
  inputs : List EventParam
  anonymous : Bool

/-- An ABI error definition (`struct Error` in `src/utils/abi.rs`). -/
structure Error where
  name : String
  inputs : List FunctionParam

/-- An ABI constructor definition (`struct Constructor`). -/
structure Constructor where
  inputs : List FunctionParam

/-- Table kinds, from `src/utils/ast.rs` (`enum TableKind`). -/
inductive TableKind where
  | JumpTable | JumpTablePacked | CodeTable
  deriving DecidableEq, Repr

/-- `enum MacroType` from `src/parser/mod.rs`. -/
inductive MacroType where
  | Macro | Fn
  deriving DecidableEq, Repr

/-- `enum ConstantValue` from `src/parser/mod.rs`. -/
inductive ConstantValue where
  | Literal (l : Literal)
  | FreeStoragePointer
  deriving DecidableEq, Repr

/-- `enum Arg` from `src/parser/mod.rs`. -/
inductive Arg where
  | Valid (s : String)
  | Invalid
  deriving DecidableEq, Repr

/-- `pub type Args = Vec<Spanned<Arg>>`. -/
abbrev Args := List Arg

/-- `enum MacroBody` from `src/parser/mod.rs`. -/
inductive MacroBody where
  | Opcode (o : Opcode)
  | MacroInvocation (name : String) (args : Args)
  | ArgsInvocation (s : String)
  | BuiltinInvocation (name : String) (args : Args)
  | JumpLabel (s : String)
  | JumpLabelDest (s : String)
  | HexLiteral (l : Literal)
  | UnexpectedToken (s : String)
  deriving DecidableEq, Repr

/-- `enum TableStatements` from `src/parser/mod.rs`. -/
inductive TableStatements where
  | JumpLabel (s : String)
  | Code (s : String)
  | Error (s : String)
  deriving DecidableEq, Repr

/-- `enum Ast` from `src/parser/mod.rs` (spans dropped). -/
inductive Ast where
  | ParsingError (token : Token) (message : String)
  | FileInclude (path : String)
  | ConstantDefinition (name : String) (value : ConstantValue)
  | MacroDefinition (name : String) (macro_type : MacroType) (takes : Nat)
      (returns : Nat) (statements : List MacroBody) (args : Args)
  | TableDefinition (name : String) (kind : TableKind)
      (statements : List TableStatements)
  | AbiFunction (f : Function)
  | AbiEvent (e : Event)
  | AbiError (e : Error)
  | AbiConstructor (c : Constructor)

/-! ## Token-level parsing primitives -/

/-- An embedded token-level chumsky parser: `none` is a parse error. -/
abbrev PParser (α : Type) : Type := List Token → Option (α × List Token)

/-- Embedded `Parser::or` at the token level (backtracking ordered choice). -/
def porElse (p q : PParser α) : PParser α := fun ts =>
  match p ts with
  | some r => some r
  | none => q ts

/-- Fuel-indexed greedy repetition (`Parser::repeated`) at the token level.
The fuel is the input length; every repeated element of these grammars
consumes at least one token, making the guard branch unreachable there. -/
def pmanyGo (p : PParser α) : Nat → List Token → List α × List Token
  | 0, ts => ([], ts)
  | fuel + 1, ts =>
      match p ts with
      | none => ([], ts)
      | some (a, r) =>
          if r.length < ts.length then
            let (xs, u) := pmanyGo p fuel r
            (a :: xs, u)
          else ([], ts)

/-- Greedy repetition with fuel set to the input length. -/
def pmany (p : PParser α) (ts : List Token) : List α × List Token :=
  pmanyGo p ts.length ts

/-! ## Token extractors (`select!` parsers in `src/parser/mod.rs`) -/

/-- `extract_string`. -/
def extract_string : PParser String := fun ts =>
  match ts with
  | Token.Str s :: r => some (s, r)
  | _ => none

/-- `extract_ident`. -/
def extract_ident : PParser String := fun ts =>
  match ts with
  | Token.Ident s :: r => some (s, r)
  | _ => none

/-- `extract_opcode`. -/
def extract_opcode : PParser Opcode := fun ts =>
  match ts with
  | Token.Opcode o :: r => some (o, r)
  | _ => none

/-- `extract_builtin_ident`. -/
def extract_builtin_ident : PParser String := fun ts =>
  match ts with
  | Token.BuiltinFunction s :: r => some (s, r)
  | _ => none

/-- `extract_literal`. -/
def extract_literal : PParser Literal := fun ts =>
  match ts with
  | Token.Literal l :: r => some (l, r)
  | _ => none

/-- `extract_number`. -/
def extract_number : PParser Nat := fun ts =>
  match ts with
  | Token.Num n :: r => some (n, r)
  | _ => none

/-- `extract_fixed_primitive`: a `PrimitiveType` token, exhaustively mapped
to a `FunctionParamType`. -/
def extract_fixed_primitive : PParser FunctionParamType := fun ts =>
  match ts with
  | Token.PrimitiveType t :: r =>
      some (match t with
            | .Address => .Address
            | .DynBytes => .Bytes
            | .Bool => .Bool
            | .String => .String
            | .Int v => .Int v
            | .Bytes v => .FixedBytes v
            | .Uint v => .Uint v, r)
  | _ => none

/-- `extract_array_primitive`: an `ArrayType` token, exhaustively mapped
to an array `FunctionParamType`. -/
def extract_array_primitive : PParser FunctionParamType := fun ts =>
  match ts with
  | Token.ArrayType t arr :: r =>
      some (match t with
            | .Address => .Array .Address arr
            | .DynBytes => .Array .Bytes arr
            | .String => .Array .String arr
            | .Bool => .Array .Bool arr
            | .Int v => .Array (.Int v) arr
            | .Uint v => .Array (.Uint v) arr
            | .Bytes v => .Array (.FixedBytes v) arr, r)
  | _ => none

/-- `extract_primitive`: fixed first, then array. -/
def extract_primitive : PParser FunctionParamType :=
  porElse extract_fixed_primitive extract_array_primitive

/-- Byte value to two lowercase hex digits. -/
def hexCharOf (n : Nat) : Char :=
  if n < 10 then Char.ofNat (48 + n) else Char.ofNat (87 + n)

/-- Modelled from the spec: `bytes32_to_string` (module `utils::bytes_util`,
not present under `src/`), with no `0x` prefix: each of the 32 bytes is
rendered as two lowercase hex digits, in order. -/
def bytes32_to_string (l : Literal) : String :=
  String.mk (l.foldr (fun b acc => hexCharOf (b / 16 % 16) :: hexCharOf (b % 16) :: acc) [])

/-- `extract_code_from_literal`. -/
def extract_code_from_literal : PParser String := fun ts =>
  match ts with
  | Token.Literal l :: r => some (bytes32_to_string l, r)
  | _ => none

/-- `extract_code`. -/
def extract_code : PParser String := fun ts =>
  match ts with
  | Token.Code s :: r => some (s, r)
  | _ => none

/-- `extract_code_table`: a literal (re-rendered as hex text) or a code
token. -/
def extract_code_table : PParser String :=
  porElse extract_code_from_literal extract_code

/-! ## Nested-delimiter recovery (`Ast::nested_parser`) -/

/-- Is this token an opening delimiter of one of the three tracked pairs? -/
def isOpenDelim : Token → Bool
  | Token.OpenParen | Token.OpenBrace | Token.OpenBracket => true
  | _ => false

/-- Is this token a closing delimiter of one of the three tracked pairs? -/
def isCloseDelim : Token → Bool
  | Token.CloseParen | Token.CloseBrace | Token.CloseBracket => true
  | _ => false

/-- The closing delimiter matching an opening delimiter. -/
def matchingClose : Token → Token
  | Token.OpenParen => Token.CloseParen
  | Token.OpenBrace => Token.CloseBrace
  | Token.OpenBracket => Token.CloseBracket
  | t => t

/-- The balanced scan of `nested_delimiters` recovery: starting inside the
original open delimiter with a stack of expected closers, consume tokens,
descending into nested delimited blocks of all three kinds, until the close
delimiter matching the original open is reached; the remainder after it is
returned. A mismatched closer or end of input fails the recovery. -/
def scanBalanced : List Token → List Token → Option (List Token)
  | _, [] => none
  | stk, t :: ts =>
      if isOpenDelim t then scanBalanced (matchingClose t :: stk) ts
      else if isCloseDelim t then
        match stk with
        | [] => none
        | c :: stk2 =>
            if t = c then
              match stk2 with
              | [] => some ts
              | c2 :: stk3 => scanBalanced (c2 :: stk3) ts
            else none
      else scanBalanced stk ts

/-- `parser.delimited_by(just(open), just(close))`. -/
def delimitedBy (p : PParser α) (od cd : Token) : PParser α := fun ts =>
  match ts with
  | t :: ts1 =>
      if t = od then
        match p ts1 with
        | some (v, u :: r) => if u = cd then some (v, r) else none
        | _ => none
      else none
  | [] => none

/-- `Ast::nested_parser`: the delimited parse, recovered with
`nested_delimiters` which, on failure, substitutes the fallback value for a
balanced delimited block. -/
def nestedParser (p : PParser α) (od cd : Token) (fb : α) : PParser α :=
  fun ts =>
    match delimitedBy p od cd ts with
    | some r => some r
    | none =>
        match ts with
        | t :: ts1 =>
            if t = od then (scanBalanced [cd] ts1).map (fun r => (fb, r))
            else none
        | [] => none

/-! ## The parser (`src/parser/mod.rs`) -/

/-- One argument of `parse_args`: a valid identifier, or an invalid
number/literal placeholder, each followed by an optional comma. -/
def parse_args_elem : PParser Arg := fun ts =>
  match ts with
  | Token.Ident s :: r => some (.Valid s, dropComma r)
  | Token.Num _ :: r => some (.Invalid, dropComma r)
  | Token.Literal _ :: r => some (.Invalid, dropComma r)
  | _ => none
where
  /-- `.then_ignore(just(Token::Comma).or_not())`. -/
  dropComma : List Token → List Token
  | Token.Comma :: r => r
  | r => r

/-- `parse_args`: zero or more macro-call arguments. -/
def parse_args (ts : List Token) : Args × List Token :=
  pmany parse_args_elem ts

/-- `parse_takes`: `takes` `(` digits? `)`, defaulting to `0` when the
parentheses are empty. -/
def parse_takes : PParser Nat := fun ts =>
  match ts with
  | Token.Takes :: Token.OpenParen :: ts1 =>
      match ts1 with
      | Token.Num n :: Token.CloseParen :: r => some (n, r)
      | Token.CloseParen :: r => some (0, r)
      | _ => none
  | _ => none

/-- `parse_returns`: `returns` `(` digits? `)`, defaulting to `0` when the
parentheses are empty. -/
def parse_returns : PParser Nat := fun ts =>
  match ts with
  | Token.Returns :: Token.OpenParen :: ts1 =>
      match ts1 with
      | Token.Num n :: Token.CloseParen :: r => some (n, r)
      | Token.CloseParen :: r => some (0, r)
      | _ => none
  | _ => none

/-- `parse_hex_literal`. -/
def parse_hex_literal : PParser MacroBody := fun ts =>
  match extract_literal ts with
  | some (l, r) => some (.HexLiteral l, r)
  | none => none

/-- `parse_jump_label`: an identifier, a label destination when followed
by a colon. -/
def parse_jump_label : PParser MacroBody := fun ts =>
  match ts with
  | Token.Ident s :: Token.Colon :: r => some (.JumpLabelDest s, r)
  | Token.Ident s :: r => some (.JumpLabel s, r)
  | _ => none

/-- `parse_arg_invocation`: `<` identifier `>`. -/
def parse_arg_invocation : PParser MacroBody := fun ts =>
  match ts with
  | Token.LeftAngle :: Token.Ident s :: Token.RightAngle :: r =>
      some (.ArgsInvocation s, r)
  | _ => none

/-- `parse_builtin_invocation`: a builtin-function token, then
parenthesized arguments; the name is the raw token payload. -/
def parse_builtin_invocation : PParser MacroBody := fun ts =>
  match ts with
  | Token.BuiltinFunction nm :: Token.OpenParen :: ts1 =>
      match parse_args ts1 with
      | (args, Token.CloseParen :: r) => some (.BuiltinInvocation nm args, r)
      | _ => none
  | _ => none

/-- `parse_macro_invocation`: an identifier, then parenthesized
arguments. -/
def parse_macro_invocation : PParser MacroBody := fun ts =>
  match ts with
  | Token.Ident nm :: Token.OpenParen :: ts1 =>
      match parse_args ts1 with
      | (args, Token.CloseParen :: r) => some (.MacroInvocation nm args, r)
      | _ => none
  | _ => none

/-- The `unexpected_macro_chars` branch of `parse_macro_body`: a bare
number becomes `UnexpectedToken(num.to_string())`. -/
def parse_unexpected_num : PParser MacroBody := fun ts =>
  match ts with
  | Token.Num n :: r => some (.UnexpectedToken (Nat.repr n), r)
  | _ => none

/-- The `unexpected_keyword` branch of `parse_macro_body`: the
`invalid_keywords` filter is `[Token::Macro, Token::Function,
Token::Storage]`, and `token.to_string()` renders those three tokens as
`Macro`, `Function` and `Storage` (the `Display` impl in
`src/lexer/token.rs`). -/
def parse_unexpected_keyword : PParser MacroBody := fun ts =>
  match ts with
  | Token.Macro :: r => some (.UnexpectedToken "Macro", r)
  | Token.Function :: r => some (.UnexpectedToken "Function", r)
  | Token.Storage :: r => some (.UnexpectedToken "Storage", r)
  | _ => none

/-- One element of `parse_macro_body`, in source order: opcode, macro
invocation, hex literal, argument invocation, builtin invocation, jump
label, unexpected number, unexpected keyword. -/
def parse_macro_body_elem : PParser MacroBody :=
  porElse (fun ts => (extract_opcode ts).map (fun (o, r) => (MacroBody.Opcode o, r)))
    (porElse parse_macro_invocation
      (porElse parse_hex_literal
        (porElse parse_arg_invocation
          (porElse parse_builtin_invocation
            (porElse parse_jump_label
              (porElse parse_unexpected_num parse_unexpected_keyword))))))

/-- `parse_macro_body`: the repeated body elements. -/
def parse_macro_body (ts : List Token) : List MacroBody × List Token :=
  pmany parse_macro_body_elem ts

/-- The delimited (un-recovered) macro body: `parse_macro_body` between
braces. -/
def macroBodyDelim : PParser (List MacroBody) :=
  delimitedBy (fun ts => some (parse_macro_body ts)) Token.OpenBrace Token.CloseBrace

/-- The braced macro body with nested-delimiter recovery; the fallback is
the empty statement list. -/
def macroBodyNested : PParser (List MacroBody) :=
  nestedParser (fun ts => some (parse_macro_body ts)) Token.OpenBrace
    Token.CloseBrace []

/-- The parenthesized macro argument list with nested-delimiter recovery;
the fallback is a single invalid argument. -/
def macroArgsNested : PParser Args :=
  nestedParser (fun ts => some (parse_args ts)) Token.OpenParen
    Token.CloseParen [Arg.Invalid]

/-- `parse_macro_type`: the `macro` or `fn` keyword. -/
def parse_macro_type : PParser MacroType := fun ts =>
  match ts with
  | Token.Macro :: r => some (.Macro, r)
  | Token.Fn :: r => some (.Fn, r)
  | _ => none

/-- The macro-definition parser of `src/parser/mod.rs` (there named after
the macro keyword): macro type, name, recovered argument list, `=`,
optional takes and returns clauses (defaulting to 0), recovered braced
body. -/
def parse_macro_def : PParser Ast := fun ts =>
  match parse_macro_type ts with
  | none => none
  | some (mt, ts1) =>
      match extract_ident ts1 with
      | none => none
      | some (nm, ts2) =>
          match macroArgsNested ts2 with
          | none => none
          | some (args, ts3) =>
              match ts3 with
              | Token.Assign :: ts4 =>
                  let (tk, ts5) :=
                    match parse_takes ts4 with
                    | some (n, r) => (n, r)
                    | none => (0, ts4)
                  let (rt, ts6) :=
                    match parse_returns ts5 with
                    | some (n, r) => (n, r)
                    | none => (0, ts5)
                  match macroBodyNested ts6 with
                  | some (body, ts7) =>
                      some (.MacroDefinition nm mt tk rt body args, ts7)
                  | none => none
              | _ => none

/-- `parse_fsp`: `FREE_STORAGE_POINTER` `(` `)`. -/
def parse_fsp : PParser Unit := fun ts =>
  match ts with
  | Token.FreeStoragePointer :: Token.OpenParen :: Token.CloseParen :: r =>
      some ((), r)
  | _ => none

/-- `parse_constant_value`: a hex literal, or a free-storage-pointer
call. -/
def parse_constant_value : PParser ConstantValue := fun ts =>
  match extract_literal ts with
  | some (l, r) => some (.Literal l, r)
  | none =>
      match parse_fsp ts with
      | some (_, r) => some (.FreeStoragePointer, r)
      | none => none

/-- `parse_constants`: `constant` name `=` value. -/
def parse_constants : PParser Ast := fun ts =>
  match ts with
  | Token.Constant :: ts1 =>
      match extract_ident ts1 with
      | some (nm, Token.Assign :: ts2) =>
          match parse_constant_value ts2 with
          | some (v, r) => some (.ConstantDefinition nm v, r)
          | none => none
      | _ => none
  | _ => none

/-- `parse_parameter_kind`: a data-location keyword. -/
def parse_parameter_kind : PParser String := fun ts =>
  match ts with
  | Token.Memory :: r => some ("memory", r)
  | Token.Storage :: r => some ("storage", r)
  | Token.Calldata :: r => some ("calldata", r)
  | _ => none

/-- One parameter of `parse_abi_inputs`: a primitive type, an optional
data location, an optional name, an optional comma. -/
def parse_abi_inputs_elem : PParser FunctionParam := fun ts =>
  match extract_primitive ts with
  | none => none
  | some (kind, ts1) =>
      let (loc, ts2) :=
        match parse_parameter_kind ts1 with
        | some (k, r) => (some k, r)
        | none => (none, ts1)
      let (nm, ts3) :=
        match extract_ident ts2 with
        | some (n, r) => (some n, r)
        | none => (none, ts2)
      let ts4 := match ts3 with
        | Token.Comma :: r => r
        | _ => ts3
      some ({ name := nm.getD "", kind := kind, internal_type := loc }, ts4)

/-- `parse_abi_inputs`: zero or more ABI parameters. -/
def parse_abi_inputs (ts : List Token) : List FunctionParam × List Token :=
  pmany parse_abi_inputs_elem ts

/-- One parameter of `parse_event_inputs`: a primitive type, an optional
`indexed` flag, an optional name, an optional comma. -/
def parse_event_inputs_elem : PParser EventParam := fun ts =>
  match extract_primitive ts with
  | none => none
  | some (kind, ts1) =>
      let (idx, ts2) :=
        match ts1 with
        | Token.Indexed :: r => (true, r)
        | _ => (false, ts1)
      let (nm, ts3) :=
        match extract_ident ts2 with
        | some (n, r) => (some n, r)
        | none => (none, ts2)
      let ts4 := match ts3 with
        | Token.Comma :: r => r
        | _ => ts3
      some ({ name := nm.getD "", kind := kind, indexed := idx }, ts4)

/-- `parse_event_inputs`: zero or more event parameters. -/
def parse_event_inputs (ts : List Token) : List EventParam × List Token :=
  pmany parse_event_inputs_elem ts

/-- `parse_abi_visibility`: one of the four mutability keywords. -/
def parse_abi_visibility : PParser FunctionType := fun ts =>
  match ts with
  | Token.View :: r => some (.View, r)
  | Token.Payable :: r => some (.Payable, r)
  | Token.NonPayable :: r => some (.NonPayable, r)
  | Token.Pure :: r => some (.Pure, r)
  | _ => none

/-- `parse_return_type`: `returns` then a recovered parenthesized
parameter list (fallback: no outputs). -/
def parse_return_type : PParser (List FunctionParam) := fun ts =>
  match ts with
  | Token.Returns :: ts1 =>
      nestedParser (fun u => some (parse_abi_inputs u)) Token.OpenParen
        Token.CloseParen [] ts1
  | _ => none

/-- `parse_abi_definition`: `function` name, recovered parenthesized inputs
(`parse_abi_inputs().or_not()` with fallback `None`), a required mutability,
an optional returns clause. -/
def parse_abi_definition : PParser Ast := fun ts =>
  match ts with
  | Token.Function :: ts1 =>
      match extract_ident ts1 with
      | none => none
      | some (nm, ts2) =>
          match nestedParser (fun u => some (some (parse_abi_inputs u).1, (parse_abi_inputs u).2))
              Token.OpenParen Token.CloseParen none ts2 with
          | none => none
          | some (inputs?, ts3) =>
              match parse_abi_visibility ts3 with
              | none => none
              | some (vis, ts4) =>
                  let (outs, ts5) :=
                    match parse_return_type ts4 with
                    | some (o, r) => (o, r)
                    | none => ([], ts4)
                  some (.AbiFunction
                    { name := nm, inputs := (inputs?.getD []),
                      outputs := outs, constant := false,
                      state_mutability := vis }, ts5)
  | _ => none

/-- `parse_abi_event_definition`: `event` name, then a recovered
parenthesized parameter list whose fallback is a single placeholder
parameter named `error`. -/
def parse_abi_event_definition : PParser Ast := fun ts =>
  match ts with
  | Token.Event :: ts1 =>
      match extract_ident ts1 with
      | none => none
      | some (nm, ts2) =>
          match nestedParser (fun u => some (parse_event_inputs u))
              Token.OpenParen Token.CloseParen
              [{ name := "error", kind := .Address, indexed := false }] ts2 with
          | none => none
          | some (inputs, ts3) =>
              some (.AbiEvent { name := nm, inputs := inputs, anonymous := false }, ts3)
  | _ => none

/-- `parse_errors`: `error` name `(` parameters `)` (plain delimiters,
no recovery). -/
def parse_errors : PParser Ast := fun ts =>
  match ts with
  | Token.Error :: ts1 =>
      match extract_ident ts1 with
      | some (nm, Token.OpenParen :: ts2) =>
          match parse_abi_inputs ts2 with
          | (params, Token.CloseParen :: r) =>
              some (.AbiError { name := nm, inputs := params }, r)
          | _ => none
      | _ => none
  | _ => none

/-- `parse_jump_table_kind`: `jumptable` or `jumptablepacked`. -/
def parse_jump_table_kind : PParser TableKind := fun ts =>
  match ts with
  | Token.JumpTable :: r => some (.JumpTable, r)
  | Token.JumpTablePacked :: r => some (.JumpTablePacked, r)
  | _ => none

/-- `parse_optional_paren`: `(` `)` `=`. -/
def parse_optional_paren : PParser Unit := fun ts =>
  match ts with
  | Token.OpenParen :: Token.CloseParen :: Token.Assign :: r => some ((), r)
  | _ => none

/-- One entry of `parse_jump_table_contents`: a label identifier, or an
error placeholder for a bare number or literal. -/
def parse_jump_table_elem : PParser TableStatements := fun ts =>
  match ts with
  | Token.Ident s :: r => some (.JumpLabel s, r)
  | Token.Num n :: r => some (.Error ("Number not expected: " ++ Nat.repr n), r)
  | Token.Literal _ :: r => some (.Error "Literal not expected", r)
  | _ => none

/-- `parse_jump_table_contents`: the repeated jump-table entries. -/
def parse_jump_table_contents (ts : List Token) :
    List TableStatements × List Token :=
  pmany parse_jump_table_elem ts

/-- `parse_jump_table`: table kind, name, optional `() =`, then the braced
contents with nested-delimiter recovery (fallback: one error entry). -/
def parse_jump_table : PParser Ast := fun ts =>
  match parse_jump_table_kind ts with
  | none => none
  | some (kind, ts1) =>
      match extract_ident ts1 with
      | none => none
      | some (nm, ts2) =>
          let ts3 :=
            match parse_optional_paren ts2 with
            | some (_, r) => r
            | none => ts2
          match nestedParser (fun u => some (parse_jump_table_contents u))
              Token.OpenBrace Token.CloseBrace
              [.Error "Unexpected token"] ts3 with
          | some (contents, ts4) =>
              some (.TableDefinition nm kind contents, ts4)
          | none => none

/-- `parse_code_table`: `codetable` name, optional `() =`, then one braced
code entry with nested-delimiter recovery (fallback: an error entry). -/
def parse_code_table : PParser Ast := fun ts =>
  match ts with
  | Token.CodeTable :: ts1 =>
      match extract_ident ts1 with
      | none => none
      | some (nm, ts2) =>
          let ts3 :=
            match parse_optional_paren ts2 with
            | some (_, r) => r
            | none => ts2
          match nestedParser
              (fun u => (extract_code_table u).map
                (fun (c, r) => (TableStatements.Code c, r)))
              Token.OpenBrace Token.CloseBrace
              (.Error "Unexpected") ts3 with
          | some (content, ts4) =>
              some (.TableDefinition nm .CodeTable [content], ts4)
          | none => none
  | _ => none

/-- `table_parser`: jump tables first, then code tables. -/
def tableP : PParser Ast := porElse parse_jump_table parse_code_table

/-- The `any()` fallback of `parse_define`: consume one token and record a
`ParsingError` statement. -/
def parse_any_error : PParser Ast := fun ts =>
  match ts with
  | t :: r => some (.ParsingError t "Expected keyword", r)
  | [] => none

/-- `parse_define`: the `#define` keyword, then the ordered choice of
macro, error, ABI function, event, table and constant definitions, with the
`ParsingError` fallback. -/
def parse_define : PParser Ast := fun ts =>
  match ts with
  | Token.Define :: ts1 =>
      (porElse parse_macro_def
        (porElse parse_errors
          (porElse parse_abi_definition
            (porElse parse_abi_event_definition
              (porElse tableP
                (porElse parse_constants parse_any_error)))))) ts1
  | _ => none

/-- `parse_include`: the `#include` keyword, then a string path; a missing
string is recovered (`or_else`) into the `____PARSING_ERROR` placeholder
path while a diagnostic is emitted. -/
def parse_include : PParser Ast := fun ts =>
  match ts with
  | Token.Include :: ts1 =>
      match extract_string ts1 with
      | some (s, r) => some (.FileInclude s, r)
      | none => some (.FileInclude "____PARSING_ERROR", ts1)
  | _ => none

/-- `Ast::parser`: a top-level statement is a define or an include. -/
def parseStatement : PParser Ast := porElse parse_define parse_include

/-- The public `parser()` entry point: at least one statement, consuming
the whole input. -/
def parseProgram (ts : List Token) : Option (List Ast) :=
  let (stmts, r) := pmany parseStatement ts
  if stmts.isEmpty then none
  else if r.isEmpty then some stmts
  else none

/-- Concatenated value of a big-endian byte list. -/
def bytesToNatBE (l : List Nat) : Nat :=
  l.foldl (fun a b => 256 * a + b) 0

/-! ## General lemmas about the embedded combinators -/

theorem pmanyGo_fuel_irrel (p : PParser α) :
    ∀ fuel fuel' (ts : List Token), ts.length ≤ fuel → ts.length ≤ fuel' →
      pmanyGo p fuel ts = pmanyGo p fuel' ts := by
  intro fuel
  induction fuel with
  | zero =>
      intro fuel' ts h _
      have : ts = [] := List.eq_nil_of_length_eq_zero (Nat.le_zero.mp h)
      subst this
      cases fuel' with
      | zero => rfl
      | succ f =>
          simp only [pmanyGo]
          cases hp : p [] with
          | none => rfl
          | some ar =>
              obtain ⟨a, r⟩ := ar
              simp
  | succ f ih =>
      intro fuel' ts h h'
      cases fuel' with
      | zero =>
          have : ts = [] := List.eq_nil_of_length_eq_zero (Nat.le_zero.mp h')
          subst this
          simp only [pmanyGo]
          cases hp : p [] with
          | none => rfl
          | some ar =>
              obtain ⟨a, r⟩ := ar
              simp
      | succ f' =>
          simp only [pmanyGo]
          cases hp : p ts with
          | none => rfl
          | some ar =>
              obtain ⟨a, r⟩ := ar
              simp only []
              by_cases hlt : r.length < ts.length
              · simp only [if_pos hlt]
                have hf : r.length ≤ f := by omega
                have hf' : r.length ≤ f' := by omega
                rw [ih f' r hf hf']
              · simp only [if_neg hlt]

theorem pmany_none {p : PParser α} {ts : List Token} (h : p ts = none) :
    pmany p ts = ([], ts) := by
  unfold pmany
  cases hl : ts.length with
  | zero => simp [pmanyGo]
  | succ n => simp [pmanyGo, h]

theorem pmany_cons {p : PParser α} {ts r : List Token} {a : α}
    (h : p ts = some (a, r)) (hlt : r.length < ts.length) :
    pmany p ts = (a :: (pmany p r).1, (pmany p r).2) := by
  unfold pmany
  cases hl : ts.length with
  | zero => omega
  | succ n =>
      have h2 : pmanyGo p n r = pmanyGo p r.length r :=
        pmanyGo_fuel_irrel p n r.length r (by omega) (le_refl _)
      simp [pmanyGo, h, hlt, h2]

/-! ## C4 — builtin table versus the two name conversions -/

/-- Claim C4: the claim asserts that for each of the 8 keys of
`BUILTINS_MAP` the fallible conversion returns `Ok` and the `From<String>`
conversion does not panic. This fails on the table key
`__DYN_CONSTRUCTOR_ARG`: the two conversions recognize the huff-rs
spelling `__CODECOPY_DYN_ARG` instead, so `TryFrom` returns `Err` and
`From<String>` reaches its `panic!` arm on a key of the table itself,
while the remaining 7 keys convert as claimed. -/
theorem builtin_dyn_constructor_arg_mismatch :
    builtinsList.length = 8 ∧
    builtinsMap "__DYN_CONSTRUCTOR_ARG" =
      some BuiltinFunctionKind.DynConstructorArg ∧
    tryFromBuiltin "__DYN_CONSTRUCTOR_ARG" = none ∧
    fromStringBuiltin "__DYN_CONSTRUCTOR_ARG" = none ∧
    tryFromBuiltin "__CODECOPY_DYN_ARG" =
      some BuiltinFunctionKind.DynConstructorArg ∧
    builtinsMap "__CODECOPY_DYN_ARG" = none ∧
    (builtinsList.all (fun p =>
      p.1 == "__DYN_CONSTRUCTOR_ARG" ||
        (tryFromBuiltin p.1 == some p.2 && fromStringBuiltin p.1 == some p.2)))
      = true := by
  decide

/-! ## C5 — lexer totality: the overflow panic -/

/-- Claim C5: the claim asserts the lexer never panics, including on
arbitrarily long digit runs after `uint`. On the input
`uint99999999999999999999` the digit run exceeds `usize::MAX`, so
`lex_uint` reaches `digits.parse().unwrap()` with an `Err` and panics;
the panic propagates through the whole `lexer()` pipeline. -/
theorem lexer_panics_on_uint_overflow :
    lexer ("uint99999999999999999999".data) = CRes.panicked ∧
    lex_uint ("uint99999999999999999999".data) = CRes.panicked ∧
    lexer ("a [99999999999999999999]".data) ≠ CRes.panicked ∧
    lex_array ("[99999999999999999999]".data) = CRes.panicked := by
  refine ⟨by decide, by decide, by decide, by decide⟩

/-! ## C2 — hex literal lexing -/

theorem hexDigitVal_lt (c : Char) : hexDigitVal c < 16 := by
  unfold hexDigitVal
  have toNat_le : ∀ {a b : Char}, a ≤ b → a.toNat ≤ b.toNat := by
    intro a b hab
    have : a.val.toNat ≤ b.val.toNat := by exact_mod_cast (hab : a.val ≤ b.val)
    simpa [Char.toNat] using this
  split
  · next h =>
      simp only [Char.isDigit, Bool.and_eq_true, decide_eq_true_eq] at h
      have : c.val.toNat ≤ 57 := by exact_mod_cast h.2
      have : c.toNat ≤ 57 := by simpa [Char.toNat] using this
      omega
  · split
    · next h =>
        simp only [Bool.and_eq_true, decide_eq_true_eq] at h
        have h2 := toNat_le h.2
        have : ('f').toNat = 102 := by decide
        omega
    · split
      · next h =>
          simp only [Bool.and_eq_true, decide_eq_true_eq] at h
          have h2 := toNat_le h.2
          have : ('F').toNat = 70 := by decide
          omega
      · omega

theorem hexVal_foldl_lt :
    ∀ (d : List Char) (acc : Nat),
      d.foldl (fun a c => 16 * a + hexDigitVal c) acc < (acc + 1) * 16 ^ d.length := by
  intro d
  induction d with
  | nil => intro acc; simp
  | cons c d ih =>
      intro acc
      have h1 := hexDigitVal_lt c
      have h2 := ih (16 * acc + hexDigitVal c)
      have h3 : (16 * acc + hexDigitVal c + 1) * 16 ^ d.length ≤
          (acc + 1) * 16 ^ (d.length + 1) := by
        have : 16 * acc + hexDigitVal c + 1 ≤ 16 * (acc + 1) := by omega
        calc (16 * acc + hexDigitVal c + 1) * 16 ^ d.length
            ≤ 16 * (acc + 1) * 16 ^ d.length :=
              Nat.mul_le_mul_right _ this
          _ = (acc + 1) * 16 ^ (d.length + 1) := by ring
      simpa [List.foldl_cons, List.length_cons] using lt_of_lt_of_le h2 h3

/-- The value of a hex digit run is bounded by `16 ^ length`. -/
theorem hexVal_lt (d : List Char) : hexVal d < 16 ^ d.length := by
  simpa [hexVal] using hexVal_foldl_lt d 0

theorem natToBytesBE_length : ∀ k v, (natToBytesBE k v).length = k := by
  intro k
  induction k with
  | zero => intro v; rfl
  | succ k ih => intro v; simp [natToBytesBE, ih]

theorem natToBytesBE_bytes_lt :
    ∀ k v, ∀ b ∈ natToBytesBE k v, b < 256 := by
  intro k
  induction k with
  | zero => intro v b hb; simp [natToBytesBE] at hb
  | succ k ih =>
      intro v b hb
      simp only [natToBytesBE, List.mem_append, List.mem_singleton] at hb
      rcases hb with hb | hb
      · exact ih _ b hb
      · subst hb; exact Nat.mod_lt _ (by omega)

theorem bytesToNatBE_natToBytesBE :
    ∀ k v, bytesToNatBE (natToBytesBE k v) = v % 256 ^ k := by
  intro k
  induction k with
  | zero => intro v; simp [natToBytesBE, bytesToNatBE, Nat.mod_one]
  | succ k ih =>
      intro v
      have hsplit : bytesToNatBE (natToBytesBE k (v / 256) ++ [v % 256]) =
          256 * bytesToNatBE (natToBytesBE k (v / 256)) + v % 256 := by
        simp [bytesToNatBE, List.foldl_append]
      have hm : v % (256 * 256 ^ k) = v % 256 + 256 * (v / 256 % 256 ^ k) :=
        Nat.mod_mul
      have hp : (256 : Nat) ^ (k + 1) = 256 * 256 ^ k := by ring
      rw [natToBytesBE, hsplit, ih, hp, hm]
      omega

/-- `text::digits` consumes the whole input when every character is a
matching digit. -/
theorem digitsWhile_all {p : Char → Bool} {d : List Char} (hne : d ≠ [])
    (h : ∀ c ∈ d, p c = true) : digitsWhile p d = some (d, []) := by
  unfold digitsWhile
  rw [List.takeWhile_eq_self_iff.mpr h, List.dropWhile_eq_nil_iff.mpr h]
  simp [hne]

/-- Claim C2: lexing `0x` followed by a hex digit run `d` of length 1..63
produces a `Literal` token whose 32 bytes are the big-endian zero-extended
value of `d`; a run of 64 or more digits produces a `Code` token carrying
the digits verbatim. (`str_to_bytes32` is modelled from the spec, see its
doc comment; the byte-level characterization is proved alongside.) -/
theorem hex_literal_lexing (d : List Char) (hne : d ≠ [])
    (hhex : ∀ c ∈ d, isHexDigit c = true) :
    (d.length < 64 →
      lex_token ('0' :: 'x' :: d) = CRes.ok (Token.Literal (str_to_bytes32 d)) [] ∧
      (str_to_bytes32 d).length = 32 ∧
      bytesToNatBE (str_to_bytes32 d) = hexVal d ∧
      ∀ b ∈ str_to_bytes32 d, b < 256) ∧
    (64 ≤ d.length →
      lex_token ('0' :: 'x' :: d) = CRes.ok (Token.Code (String.mk d)) []) := by
  have hdig : digits16 d = some (d, []) := digitsWhile_all hne hhex
  have hlit : ∀ (t : Token) (r : List Char),
      lex_literals ('0' :: 'x' :: d) = CRes.ok t r →
      lex_token ('0' :: 'x' :: d) = CRes.ok t r := by
    intro t r h
    simp [lex_token, corElse, lex_define, lex_evm_type, keywordP, identP,
      isIdentStart, lex_abi_type, lex_uint, lex_bytes, lex_int,
      lex_free_storage_pointer, key, skipWs, wsChar, lex_include, lex_string, h]
  have hval : bytesToNatBE (str_to_bytes32 d) = hexVal d % 256 ^ 32 := by
    simp [str_to_bytes32, bytesToNatBE_natToBytesBE]
  constructor
  · intro hlen
    have hbound : hexVal d < 256 ^ 32 := by
      have h1 : hexVal d < 16 ^ d.length := hexVal_lt d
      have h2 : (16 : Nat) ^ d.length ≤ 16 ^ 63 :=
        Nat.pow_le_pow_right (by omega) (by omega)
      have h3 : (16 : Nat) ^ 63 < 256 ^ 32 := by norm_num
      omega
    refine ⟨?_, natToBytesBE_length 32 _, ?_, natToBytesBE_bytes_lt 32 _⟩
    · exact hlit _ _ (by simp [lex_literals, hdig, hlen])
    · rw [hval, Nat.mod_eq_of_lt hbound]
  · intro hlen
    refine hlit _ _ ?_
    simp [lex_literals, hdig]
    omega

/-- Witness for C2 at the concrete runs `12` (two digits) and a run of 64
`1` digits. -/
theorem hex_literal_lexing_witness :
    lex_token ('0' :: 'x' :: ['1', '2']) =
      CRes.ok (Token.Literal (str_to_bytes32 ['1', '2'])) [] ∧
    lex_token ('0' :: 'x' :: List.replicate 64 '1') =
      CRes.ok (Token.Code (String.mk (List.replicate 64 '1'))) [] :=
  ⟨((hex_literal_lexing ['1', '2'] (by decide) (by decide)).1 (by decide)).1,
   (hex_literal_lexing (List.replicate 64 '1') (by decide)
      (by decide)).2 (by simp)⟩

/-! ## C3 — opcode-table keys and the lexer -/

/-- Executable check behind the amended C3 statement: every opcode-table
entry other than `address` lexes to the mapped `Opcode` token. -/
def opcodeLexCheck : Bool :=
  opcodesList.all (fun p =>
    p.1 == "address" ||
      (opcodesMap p.1 == some p.2 &&
        lex_token p.1.data == CRes.ok (Token.Opcode p.2) []))

set_option maxRecDepth 100000 in
theorem opcodeLexCheck_true : opcodeLexCheck = true := by decide

/-- Claim C3 (amended): for every key of the opcode table except
`address`, lexing the bare word yields the `Opcode` token the table maps it
to. (The key `address` is intercepted by the earlier primitive-type
recognizer; see the counterexample.) -/
theorem opcode_lexing_amended :
    ∀ s ∈ opcodeKeys, s ≠ "address" →
      ∃ op, opcodesMap s = some op ∧
        lex_token s.data = CRes.ok (Token.Opcode op) [] := by
  intro s hs hne
  obtain ⟨p, hp, rfl⟩ := List.mem_map.mp hs
  have hc := List.all_eq_true.mp opcodeLexCheck_true p hp
  simp only [beq_iff_eq, Bool.or_eq_true, Bool.and_eq_true] at hc
  rcases hc with hc | ⟨h1, h2⟩
  · exact absurd hc hne
  · exact ⟨p.2, by simpa using h1, by simpa using h2⟩

/-- Witness for C3 (amended) at the key `stop`. -/
theorem opcode_lexing_amended_witness :
    ∃ op, opcodesMap "stop" = some op ∧
      lex_token ("stop".data) = CRes.ok (Token.Opcode op) [] :=
  opcode_lexing_amended "stop" (by decide) (by decide)

/-- Counterexample to C3 as stated: `address` is a key of the opcode table,
yet the lexer produces a `PrimitiveType` token for it, never an `Opcode`
token, because `lex_evm_type` precedes `lex_opcode_or_ident` in the ordered
token choice. -/
theorem opcode_lexing_counterexample :
    opcodesMap "address" = some Opcode.Address ∧
    lex_token ("address".data) =
      CRes.ok (Token.PrimitiveType PrimitiveEVMType.Address) [] := by
  decide

/-! ## C10 — builtin names are lexed without their `__` prefix -/

/-- Claim C10: lexing `__` followed by an identifier produces a
`BuiltinFunction` token whose payload is the identifier with the two
underscores stripped; `parse_builtin_invocation` stores that payload
unchanged as the invocation name; and since every `BUILTINS_MAP` key
carries the `__` prefix, looking the stripped payload of any builtin-table
name up in the map finds nothing. -/
theorem builtin_name_prefix_mismatch :
    (∀ cs w r, identP cs = some (w, r) →
      lex_builtin_function ('_' :: '_' :: cs) =
        CRes.ok (Token.BuiltinFunction (String.mk w)) r) ∧
    (∀ nm rest,
      parse_builtin_invocation
          (Token.BuiltinFunction nm :: Token.OpenParen ::
            Token.CloseParen :: rest) =
        some (MacroBody.BuiltinInvocation nm [], rest)) ∧
    (∀ p ∈ builtinsList, builtinsMap (p.1.drop 2) = none) := by
  refine ⟨?_, ?_, ?_⟩
  · intro cs w r h
    simp [lex_builtin_function, h]
  · intro nm rest
    have h1 : parse_args_elem (Token.CloseParen :: rest) = none := rfl
    have h2 := pmany_none h1
    simp [parse_builtin_invocation, parse_args, h2]
  · decide

/-- Witness for C10 at the builtin name `__FUNC_SIG`. -/
theorem builtin_name_prefix_mismatch_witness :
    lex_builtin_function ("__FUNC_SIG".data) =
      CRes.ok (Token.BuiltinFunction "FUNC_SIG") [] ∧
    parse_builtin_invocation
        [Token.BuiltinFunction "FUNC_SIG", Token.OpenParen,
          Token.CloseParen] =
      some (MacroBody.BuiltinInvocation "FUNC_SIG" [], []) ∧
    builtinsMap "FUNC_SIG" = none := by
  refine ⟨?_, builtin_name_prefix_mismatch.2.1 "FUNC_SIG" [], ?_⟩
  · have := builtin_name_prefix_mismatch.1 ("FUNC_SIG".data)
      ("FUNC_SIG".data) [] (by decide)
    simpa using this
  · have := builtin_name_prefix_mismatch.2.2 ("__FUNC_SIG",
      BuiltinFunctionKind.FunctionSignature) (by decide)
    simpa using this

/-! ## C8 — the token stream always ends in a Newline -/

/-- Every successful result of `lex_newline_and_comments` carries the
collapsed `Newline` token. -/
theorem lex_newline_tok {cs : List Char} {t : Token} {r : List Char}
    (h : lex_newline_and_comments cs = CRes.ok t r) : t = Token.Newline := by
  unfold lex_newline_and_comments at h
  cases hn : nlElem cs with
  | none => rw [hn] at h; exact absurd h (by simp)
  | some u => rw [hn] at h; exact (CRes.ok.injEq _ _ _ _).mp h |>.1.symm

/-- Claim C8: (1) every successful lexer run produces a non-empty token
list whose final token is `Newline` (synthesized at end of input when the
source does not end in a separator run); (2) a leading newline is consumed
and discarded — lexing `\n` followed by a source whose head starts no
further newline or comment element (`nlElem cs = none`) equals lexing that
source directly. -/
theorem lexer_ends_with_newline :
    (∀ cs out rest, lexer cs = CRes.ok out rest →
      out ≠ [] ∧ out.getLast? = some Token.Newline) ∧
    (∀ cs, nlElem cs = none → lexer ('\n' :: cs) = lexer cs) := by
  constructor
  · intro cs out rest h
    have hshape : ∀ u, chuffTokens u = CRes.ok out rest →
        ∃ ts, out = ts ++ [Token.Newline] := by
      intro u hu
      unfold chuffTokens at hu
      cases hm : cmany lexElement u with
      | panicked => rw [hm] at hu; exact absurd hu (by simp)
      | fail => rw [hm] at hu; exact absurd hu (by simp)
      | ok ts r =>
          rw [hm] at hu
          simp only at hu
          cases hn : lex_newline_and_comments r with
          | panicked => rw [hn] at hu; exact absurd hu (by simp)
          | fail =>
              rw [hn] at hu
              by_cases hre : r.isEmpty
              · simp only [hre, if_true] at hu
                exact ⟨ts, ((CRes.ok.injEq _ _ _ _).mp hu).1.symm⟩
              · simp [hre] at hu
          | ok t r2 =>
              rw [hn] at hu
              have ht := lex_newline_tok hn
              subst ht
              by_cases hre : r2.isEmpty
              · simp only [hre, if_true] at hu
                exact ⟨ts, ((CRes.ok.injEq _ _ _ _).mp hu).1.symm⟩
              · simp [hre] at hu
    have hout : ∃ ts, out = ts ++ [Token.Newline] := by
      unfold lexer at h
      cases hn : lex_newline_and_comments cs with
      | ok t r => rw [hn] at h; exact hshape r h
      | fail => rw [hn] at h; exact hshape cs h
      | panicked => rw [hn] at h; exact absurd h (by simp)
    obtain ⟨ts, rfl⟩ := hout
    exact ⟨by simp, by simp⟩
  · intro cs hne
    have hrun : lex_newline_and_comments ('\n' :: cs) =
        CRes.ok Token.Newline cs := by
      have h1 : nlElem ('\n' :: cs) = some cs := by
        unfold nlElem newlineP
        cases cs <;> simp
      have h2 : nlMany cs.length cs = cs := by
        cases hl : cs.length with
        | zero => rfl
        | succ k => simp [nlMany, hne]
      unfold lex_newline_and_comments
      rw [h1]
      simp only
      rw [h2]
    have hrhs : lex_newline_and_comments cs = CRes.fail := by
      unfold lex_newline_and_comments
      rw [hne]
    unfold lexer
    rw [hrun, hrhs]

/-- Witness for C8 at the source `add` (no trailing newline in the
source, so the final `Newline` is synthesized; prepending one newline is
discarded). -/
theorem lexer_ends_with_newline_witness :
    ([Token.Opcode Opcode.Add, Token.Newline] ≠ ([] : List Token) ∧
      [Token.Opcode Opcode.Add, Token.Newline].getLast? = some Token.Newline) ∧
    lexer ('\n' :: ("add".data)) = lexer ("add".data) :=
  ⟨lexer_ends_with_newline.1 ("add".data) _ [] (by decide),
   lexer_ends_with_newline.2 ("add".data) (by decide)⟩

/-! ## C9 — the parser consumes everything and rejects empty input -/

/-- Claim C9: a successful parse yields a non-empty statement list; the
empty token sequence is an error; any input left unconsumed by the
statement repetition is an error; and concretely, a well-formed constant
definition parses whole while the same tokens followed by a stray comma
are rejected. -/
theorem parser_consumes_entire_input :
    (∀ ts out, parseProgram ts = some out → out ≠ []) ∧
    parseProgram [] = none ∧
    (∀ ts, (pmany parseStatement ts).2 ≠ [] → parseProgram ts = none) ∧
    parseProgram [Token.Define, Token.Constant, Token.Ident "X", Token.Assign,
        Token.Literal (str_to_bytes32 ['0', '1'])] =
      some [Ast.ConstantDefinition "X"
        (ConstantValue.Literal (str_to_bytes32 ['0', '1']))] ∧
    parseProgram [Token.Define, Token.Constant, Token.Ident "X", Token.Assign,
        Token.Literal (str_to_bytes32 ['0', '1']), Token.Comma] = none := by
    refine ⟨?_, rfl, ?_, rfl, rfl⟩
    · intro ts out h
      unfold parseProgram at h
      rcases hp : pmany parseStatement ts with ⟨stmts, r⟩
      rw [hp] at h
      by_cases h1 : stmts.isEmpty
      · simp [h1] at h
      · by_cases h2 : r.isEmpty
        · simp [h1, h2] at h
          subst h
          simp [List.isEmpty_iff] at h1
          exact h1
        · simp [h1, h2] at h
    · intro ts hr
      unfold parseProgram
      rcases hp : pmany parseStatement ts with ⟨stmts, r⟩
      rw [hp] at hr
      simp only at hr
      by_cases h1 : stmts.isEmpty
      · simp [h1]
      · have h2 : r.isEmpty = false := by
          cases r with
          | nil => exact absurd rfl hr
          | cons a l => rfl
        simp [h1, h2]

/-- Witness for C9: the universally quantified conjuncts instantiated at
the concrete two-token results above. -/
theorem parser_consumes_entire_input_witness :
    ([Ast.ConstantDefinition "X"
        (ConstantValue.Literal (str_to_bytes32 ['0', '1']))] ≠ ([] : List Ast)) ∧
    parseProgram [Token.Ident "X"] = none :=
  ⟨parser_consumes_entire_input.1 _ _ parser_consumes_entire_input.2.2.2.1,
   parser_consumes_entire_input.2.2.1 [Token.Ident "X"] (by decide)⟩

/-! ## C7 — takes/returns defaults -/

/-- Claim C7: in a parsed macro or fn definition, an omitted `takes` or
`returns` clause defaults the corresponding field to 0, and a clause
present with empty parentheses also yields 0 (shown for the standalone
clause parsers and for whole definitions of both macro kinds, over any
name and trailing input). -/
theorem takes_returns_default_zero (n : String) (rest : List Token) :
    parse_takes (Token.Takes :: Token.OpenParen :: Token.CloseParen :: rest) =
      some (0, rest) ∧
    parse_returns (Token.Returns :: Token.OpenParen :: Token.CloseParen :: rest) =
      some (0, rest) ∧
    parse_macro_def (Token.Macro :: Token.Ident n :: Token.OpenParen ::
        Token.CloseParen :: Token.Assign :: Token.OpenBrace ::
        Token.CloseBrace :: rest) =
      some (Ast.MacroDefinition n MacroType.Macro 0 0 [] [], rest) ∧
    parse_macro_def (Token.Fn :: Token.Ident n :: Token.OpenParen ::
        Token.CloseParen :: Token.Assign :: Token.OpenBrace ::
        Token.CloseBrace :: rest) =
      some (Ast.MacroDefinition n MacroType.Fn 0 0 [] [], rest) ∧
    parse_macro_def (Token.Macro :: Token.Ident n :: Token.OpenParen ::
        Token.CloseParen :: Token.Assign :: Token.Takes :: Token.OpenParen ::
        Token.CloseParen :: Token.Returns :: Token.OpenParen ::
        Token.CloseParen :: Token.OpenBrace :: Token.CloseBrace :: rest) =
      some (Ast.MacroDefinition n MacroType.Macro 0 0 [] [], rest) := by
  have hargs : ∀ l : List Token,
      pmany parse_args_elem (Token.CloseParen :: l) = ([], Token.CloseParen :: l) :=
    fun l => pmany_none rfl
  have hbody : ∀ l : List Token,
      pmany parse_macro_body_elem (Token.CloseBrace :: l) =
        ([], Token.CloseBrace :: l) :=
    fun l => pmany_none rfl
  refine ⟨rfl, rfl, ?_, ?_, ?_⟩ <;>
    simp [parse_macro_def, parse_macro_type, extract_ident, macroArgsNested,
      nestedParser, delimitedBy, parse_args, hargs, parse_takes, parse_returns,
      macroBodyNested, parse_macro_body, hbody]

/-! ## C6 — unexpected tokens inside a macro body -/

/-- Does this body element record an unexpected token? -/
def isUnexpectedTok : MacroBody → Bool
  | .UnexpectedToken _ => true
  | _ => false

/-- Does this statement contain an `UnexpectedToken` body element? -/
def astHasUnexpected : Ast → Bool
  | .MacroDefinition _ _ _ _ stmts _ => stmts.any isUnexpectedTok
  | _ => false

/-- Counterexample to C6 as stated: inside the macro body
`{ add constant }`, the `constant` keyword matches none of the recognized
body forms, yet it is NOT recorded as an `UnexpectedToken` element — the
body repetition stops, the delimited parse fails, and balanced-delimiter
recovery replaces the whole body (including the already-parsed `add`) with
the empty placeholder, so no `UnexpectedToken` appears anywhere in the
output. -/
theorem macro_body_abort_counterexample :
    parseProgram [Token.Define, Token.Macro, Token.Ident "M", Token.OpenParen,
        Token.CloseParen, Token.Assign, Token.OpenBrace,
        Token.Opcode Opcode.Add, Token.Constant, Token.CloseBrace] =
      some [Ast.MacroDefinition "M" MacroType.Macro 0 0 [] []] ∧
    astHasUnexpected (Ast.MacroDefinition "M" MacroType.Macro 0 0 [] []) =
      false := by
  exact ⟨rfl, rfl⟩

/-- Claim C6 (amended): within a macro body, a bare number token and
exactly the keywords `macro`, `function` and `storage` are recorded as
`UnexpectedToken` elements carrying the token's rendered text, and body
parsing continues with the remaining tokens; any other token matching no
body form instead stops the body repetition (triggering the enclosing
balanced-delimiter recovery, per the counterexample). -/
theorem macro_body_unexpected_token :
    (∀ (m : Nat) (bs : List Token),
      parse_macro_body (Token.Num m :: bs) =
        (MacroBody.UnexpectedToken (Nat.repr m) :: (parse_macro_body bs).1,
          (parse_macro_body bs).2)) ∧
    (∀ bs : List Token,
      parse_macro_body (Token.Macro :: bs) =
        (MacroBody.UnexpectedToken "Macro" :: (parse_macro_body bs).1,
          (parse_macro_body bs).2)) ∧
    (∀ bs : List Token,
      parse_macro_body (Token.Function :: bs) =
        (MacroBody.UnexpectedToken "Function" :: (parse_macro_body bs).1,
          (parse_macro_body bs).2)) ∧
    (∀ bs : List Token,
      parse_macro_body (Token.Storage :: bs) =
        (MacroBody.UnexpectedToken "Storage" :: (parse_macro_body bs).1,
          (parse_macro_body bs).2)) ∧
    parse_macro_body_elem [Token.Constant] = none := by
  refine ⟨?_, ?_, ?_, ?_, rfl⟩
  · intro m bs
    exact pmany_cons rfl (by simp)
  all_goals intro bs
  all_goals exact pmany_cons rfl (by simp)

/-! ## C1 — balanced-delimiter recovery resynchronizes the top level -/

/-- Token sequences that are properly nested with respect to the three
delimiter pairs tracked by `nested_delimiters` recovery: a concatenation of
non-delimiter tokens and properly nested delimited blocks. -/
inductive Balanced : List Token → Prop where
  | nil : Balanced []
  | other (t : Token) (ts : List Token) (h1 : isOpenDelim t = false)
      (h2 : isCloseDelim t = false) (h : Balanced ts) : Balanced (t :: ts)
  | nest (t : Token) (inner rest : List Token) (h1 : isOpenDelim t = true)
      (hi : Balanced inner) (hr : Balanced rest) :
      Balanced (t :: inner ++ matchingClose t :: rest)

theorem matchingClose_not_open {t : Token} (h : isOpenDelim t = true) :
    isOpenDelim (matchingClose t) = false ∧
    isCloseDelim (matchingClose t) = true := by
  cases t <;> simp_all [isOpenDelim, isCloseDelim, matchingClose]

/-- The recovery scan skips a whole balanced block: scanning `b ++ c ::
rest` with `c` the expected closer on top of the stack passes over `b`,
pops `c`, and either finishes (empty remaining stack) or continues into
`rest`. -/
theorem scanBalanced_through {b : List Token} (hb : Balanced b) :
    ∀ (c : Token) (stk rest : List Token),
      isOpenDelim c = false → isCloseDelim c = true →
      scanBalanced (c :: stk) (b ++ c :: rest) =
        match stk with
        | [] => some rest
        | c2 :: stk2 => scanBalanced (c2 :: stk2) rest := by
  induction hb with
  | nil =>
      intro c stk rest h1 h2
      cases stk <;> simp [scanBalanced, h1, h2]
  | other t ts h1 h2 h ih =>
      intro c stk rest hc1 hc2
      have := ih c stk rest hc1 hc2
      simpa [scanBalanced, h1, h2] using this
  | nest t inner rest2 h1 hi hr ih_inner ih_rest =>
      intro c stk rest hc1 hc2
      obtain ⟨hm1, hm2⟩ := matchingClose_not_open h1
      have e1 : (t :: inner ++ matchingClose t :: rest2) ++ c :: rest =
          t :: (inner ++ matchingClose t :: (rest2 ++ c :: rest)) := by
        simp
      rw [e1]
      have e2 : scanBalanced (c :: stk)
            (t :: (inner ++ matchingClose t :: (rest2 ++ c :: rest))) =
          scanBalanced (matchingClose t :: (c :: stk))
            (inner ++ matchingClose t :: (rest2 ++ c :: rest)) := by
        simp [scanBalanced, h1]
      rw [e2]
      have h3 := ih_inner (matchingClose t) (c :: stk) (rest2 ++ c :: rest)
        hm1 hm2
      simp only at h3
      rw [h3]
      exact ih_rest c stk rest hc1 hc2

/-- Claim C1: a macro definition whose brace-delimited body is malformed
(the delimited body parse fails) but balanced is recovered into a
`MacroDefinition` with the empty placeholder body, and a following
well-formed `#define constant X = <literal>` still parses, producing the
`ConstantDefinition` for `X` as the final statement of the output — the
malformed body does not desynchronize the subsequent top-level
statement. -/
theorem malformed_macro_body_resync (n x : String) (v : Literal)
    (b : List Token) (hb : Balanced b)
    (hmal : macroBodyDelim (Token.OpenBrace :: (b ++ Token.CloseBrace ::
      [Token.Define, Token.Constant, Token.Ident x, Token.Assign,
       Token.Literal v])) = none) :
    parseProgram (Token.Define :: Token.Macro :: Token.Ident n ::
        Token.OpenParen :: Token.CloseParen :: Token.Assign ::
        Token.OpenBrace :: (b ++ Token.CloseBrace :: [Token.Define,
          Token.Constant, Token.Ident x, Token.Assign, Token.Literal v])) =
      some [Ast.MacroDefinition n MacroType.Macro 0 0 [] [],
            Ast.ConstantDefinition x (ConstantValue.Literal v)] ∧
    [Ast.MacroDefinition n MacroType.Macro 0 0 [] [],
     Ast.ConstantDefinition x (ConstantValue.Literal v)].getLast? =
      some (Ast.ConstantDefinition x (ConstantValue.Literal v)) := by
  refine ⟨?_, rfl⟩
  have hscan : scanBalanced [Token.CloseBrace]
      (b ++ Token.CloseBrace :: [Token.Define, Token.Constant,
        Token.Ident x, Token.Assign, Token.Literal v]) =
      some [Token.Define, Token.Constant, Token.Ident x, Token.Assign,
        Token.Literal v] := by
    have := scanBalanced_through hb Token.CloseBrace []
      [Token.Define, Token.Constant, Token.Ident x, Token.Assign,
        Token.Literal v] (by decide) (by decide)
    simpa using this
  have hmal2 : delimitedBy (fun ts => some (parse_macro_body ts))
      Token.OpenBrace Token.CloseBrace
      (Token.OpenBrace :: (b ++ Token.CloseBrace :: [Token.Define,
        Token.Constant, Token.Ident x, Token.Assign, Token.Literal v])) =
      none := hmal
  have hnested : macroBodyNested (Token.OpenBrace :: (b ++
      Token.CloseBrace :: [Token.Define, Token.Constant, Token.Ident x,
        Token.Assign, Token.Literal v])) =
      some ([], [Token.Define, Token.Constant, Token.Ident x, Token.Assign,
        Token.Literal v]) := by
    simp [macroBodyNested, nestedParser, hmal2, hscan]
  have hargs : pmany parse_args_elem (Token.CloseParen :: Token.Assign ::
      Token.OpenBrace :: (b ++ Token.CloseBrace :: [Token.Define,
        Token.Constant, Token.Ident x, Token.Assign, Token.Literal v])) =
      ([], Token.CloseParen :: Token.Assign :: Token.OpenBrace ::
        (b ++ Token.CloseBrace :: [Token.Define, Token.Constant,
          Token.Ident x, Token.Assign, Token.Literal v])) :=
    pmany_none rfl
  have hstmt1 : parseStatement (Token.Define :: Token.Macro ::
      Token.Ident n :: Token.OpenParen :: Token.CloseParen ::
      Token.Assign :: Token.OpenBrace :: (b ++ Token.CloseBrace ::
        [Token.Define, Token.Constant, Token.Ident x, Token.Assign,
          Token.Literal v])) =
      some (Ast.MacroDefinition n MacroType.Macro 0 0 [] [],
        [Token.Define, Token.Constant, Token.Ident x, Token.Assign,
          Token.Literal v]) := by
    simp [parseStatement, porElse, parse_define, parse_macro_def,
      parse_macro_type, extract_ident, macroArgsNested, nestedParser,
      delimitedBy, parse_args, hargs, parse_takes, parse_returns, hnested]
  have hstmt2 : parseStatement [Token.Define, Token.Constant,
      Token.Ident x, Token.Assign, Token.Literal v] =
      some (Ast.ConstantDefinition x (ConstantValue.Literal v), []) := by
    simp [parseStatement, porElse, parse_define, parse_macro_def,
      parse_macro_type, parse_errors, parse_abi_definition,
      parse_abi_event_definition, tableP, parse_jump_table,
      parse_jump_table_kind, parse_code_table, parse_constants,
      extract_ident, parse_constant_value, extract_literal]
  have hlen1 : ([Token.Define, Token.Constant, Token.Ident x, Token.Assign,
      Token.Literal v] : List Token).length <
      (Token.Define :: Token.Macro :: Token.Ident n :: Token.OpenParen ::
        Token.CloseParen :: Token.Assign :: Token.OpenBrace ::
        (b ++ Token.CloseBrace :: [Token.Define, Token.Constant,
          Token.Ident x, Token.Assign, Token.Literal v])).length := by
    simp
  have h3 : pmany parseStatement ([] : List Token) = ([], []) :=
    pmany_none rfl
  have h2 := pmany_cons hstmt2 (by simp)
  rw [h3] at h2
  simp only at h2
  have h1 := pmany_cons hstmt1 hlen1
  rw [h2] at h1
  simp only at h1
  unfold parseProgram
  rw [h1]
  simp

/-- Witness for C1: the malformed but balanced body `{ = }` followed by
`#define constant X = 0x01`. -/
theorem malformed_macro_body_resync_witness :
    parseProgram [Token.Define, Token.Macro, Token.Ident "BROKEN",
        Token.OpenParen, Token.CloseParen, Token.Assign, Token.OpenBrace,
        Token.Assign, Token.CloseBrace, Token.Define, Token.Constant,
        Token.Ident "X", Token.Assign,
        Token.Literal (str_to_bytes32 ['0', '1'])] =
      some [Ast.MacroDefinition "BROKEN" MacroType.Macro 0 0 [] [],
            Ast.ConstantDefinition "X"
              (ConstantValue.Literal (str_to_bytes32 ['0', '1']))] := by
  have := malformed_macro_body_resync "BROKEN" "X" (str_to_bytes32 ['0', '1'])
    [Token.Assign]
    (Balanced.other Token.Assign [] rfl rfl Balanced.nil)
    (by decide)
  simpa using this.1

end Chuff
